import Mathlib

/-!
# Entity X — orchestration core, shallow embedding

A shallow embedding of the orchestration core of the Entity X desktop
application (main process `part_001`, persistence layer `db.js`), together
with proofs of the behavioural claims about it.

Conventions of the embedding:
* JavaScript numbers are modelled as rationals (`ℚ`); the operations the
  code performs on them (clamping, `× 100`, negation, comparison) are exact
  on the values exercised here.
* JavaScript objects built by spread syntax are modelled as association
  lists of `String × Json` with last-write-wins field update, so the
  `undefined` / `null` distinction is expressible (`none` vs `Json.null`).
* Fallible calls (`fetch`, `JSON.parse`, better-sqlite3 statements) are
  modelled by explicit outcome values passed in, and thrown exceptions by
  `Except`; a caught exception is an `Except.error` consumed inside the
  embedded function.
-/

set_option maxHeartbeats 2000000

namespace EntityX

/-! ## JSON values

`JSON.stringify` / `JSON.parse` are modelled by an executable printer and
reader over a JSON value type.  The value type is a mutual inductive so that
structural recursion and induction over arrays and objects stay simple. -/

mutual

inductive Json where
  | null : Json
  | bool (b : Bool) : Json
  | num (q : ℚ) : Json
  | str (s : String) : Json
  | arr (items : JsonArr) : Json
  | obj (fields : JsonObj) : Json

inductive JsonArr where
  | nil : JsonArr
  | cons (hd : Json) (tl : JsonArr) : JsonArr

inductive JsonObj where
  | nil : JsonObj
  | cons (key : String) (val : Json) (tl : JsonObj) : JsonObj

end

/-- Decimal digit character of a digit value (0–9). -/
def digChar : Nat → Char
  | 0 => '0' | 1 => '1' | 2 => '2' | 3 => '3' | 4 => '4'
  | 5 => '5' | 6 => '6' | 7 => '7' | 8 => '8' | _ => '9'

/-- Value of a decimal digit character. -/
def digVal (c : Char) : Nat :=
  if c = '0' then 0 else if c = '1' then 1 else if c = '2' then 2
  else if c = '3' then 3 else if c = '4' then 4 else if c = '5' then 5
  else if c = '6' then 6 else if c = '7' then 7 else if c = '8' then 8
  else 9

/-- Is the character a decimal digit? -/
def isDig (c : Char) : Bool :=
  c = '0' || c = '1' || c = '2' || c = '3' || c = '4' ||
  c = '5' || c = '6' || c = '7' || c = '8' || c = '9'

/-- Most-significant-first decimal digits, by fuelled recursion on the
value (so that the kernel can evaluate it). -/
def natDigitsGo : Nat → Nat → List Char
  | _, 0 => []
  | 0, _ + 1 => []
  | fuel + 1, n + 1 =>
    natDigitsGo fuel ((n + 1) / 10) ++ [digChar ((n + 1) % 10)]

/-- Most-significant-first decimal digits of a natural number
(empty for zero; callers pad). -/
def natDigits (n : Nat) : List Char := natDigitsGo n n

theorem natDigitsGo_eq (fuel n : Nat) (h : n ≤ fuel) :
    natDigitsGo fuel n = (Nat.digits 10 n).reverse.map digChar := by
  induction fuel generalizing n with
  | zero =>
    interval_cases n
    simp [natDigitsGo]
  | succ f ih =>
    match n with
    | 0 => simp [natDigitsGo]
    | m + 1 =>
      rw [natDigitsGo]
      rw [ih ((m + 1) / 10) (by omega)]
      rw [Nat.digits_def' (by norm_num : (1:Nat) < 10) (Nat.succ_pos m)]
      simp [List.reverse_cons]

theorem natDigits_eq (n : Nat) :
    natDigits n = (Nat.digits 10 n).reverse.map digChar :=
  natDigitsGo_eq n n le_rfl

/-- Decimal value of a most-significant-first digit string. -/
def digitsVal (l : List Char) : Nat :=
  l.foldl (fun a c => a * 10 + digVal c) 0

theorem digVal_digChar {d : Nat} (h : d < 10) : digVal (digChar d) = d := by
  interval_cases d <;> decide

theorem isDig_digChar {d : Nat} (h : d < 10) : isDig (digChar d) = true := by
  interval_cases d <;> decide

theorem digitsVal_foldl (a : Nat) (l : List Char) :
    l.foldl (fun a c => a * 10 + digVal c) a = a * 10 ^ l.length + digitsVal l := by
  induction l generalizing a with
  | nil => simp [digitsVal]
  | cons c t ih =>
    simp only [List.foldl_cons, digitsVal, List.length_cons]
    rw [ih, ih (0 * 10 + digVal c)]
    ring

theorem digitsVal_append (l1 l2 : List Char) :
    digitsVal (l1 ++ l2) = digitsVal l1 * 10 ^ l2.length + digitsVal l2 := by
  simp only [digitsVal, List.foldl_append]
  rw [digitsVal_foldl]
  rfl

theorem digitsVal_natDigits (n : Nat) : digitsVal (natDigits n) = n := by
  have h : ∀ L : List Nat, (∀ d ∈ L, d < 10) →
      digitsVal (L.reverse.map digChar) = Nat.ofDigits 10 L := by
    intro L
    induction L with
    | nil => intro _; simp [digitsVal]
    | cons d t ih =>
      intro hd
      simp only [List.reverse_cons, List.map_append, List.map_cons, List.map_nil]
      rw [digitsVal_append]
      simp only [List.length_cons, List.length_nil, Nat.ofDigits_cons]
      rw [ih (fun x hx => hd x (List.mem_cons_of_mem _ hx))]
      simp only [digitsVal, List.foldl_cons, List.foldl_nil, Nat.zero_mul, Nat.zero_add]
      rw [digVal_digChar (hd d (List.mem_cons_self d t))]
      ring
  rw [natDigits_eq, h _ (fun d hd => Nat.digits_lt_base (by norm_num) hd)]
  exact Nat.ofDigits_digits 10 n

theorem natDigits_isDig (n : Nat) : ∀ c ∈ natDigits n, isDig c = true := by
  intro c hc
  simp only [natDigits_eq, List.mem_map, List.mem_reverse] at hc
  obtain ⟨d, hd, rfl⟩ := hc
  exact isDig_digChar (Nat.digits_lt_base (by norm_num) hd)

/-- Decimal representation of a natural number, as the JavaScript template
string of n renders it. -/
def decRepr (n : Nat) : String :=
  if n = 0 then "0" else String.mk (natDigits n)

/-! ### String escaping for JSON string literals -/

/-- Escape one character for inclusion in a JSON string literal. -/
def escChar (c : Char) : List Char :=
  if c = '"' ∨ c = '\\' then ['\\', c]
  else if c = '\n' then ['\\', 'n']
  else if c = '\t' then ['\\', 't']
  else if c = '\r' then ['\\', 'r']
  else [c]

/-- Escape a character list for a JSON string literal body. -/
def escapeChars (l : List Char) : List Char := (l.map escChar).flatten

/-- Reverse mapping for a backslash escape. -/
def unescChar (c : Char) : Option Char :=
  if c = '"' then some '"'
  else if c = '\\' then some '\\'
  else if c = 'n' then some '\n'
  else if c = 't' then some '\t'
  else if c = 'r' then some '\r'
  else none

/-- Read a JSON string literal body up to the closing quote; returns the
unescaped characters and the remaining input. -/
def parseStrBody : List Char → Option (List Char × List Char)
  | [] => none
  | c :: rest =>
    if c = '"' then some ([], rest)
    else if c = '\\' then
      match rest with
      | [] => none
      | d :: rest2 =>
        match unescChar d with
        | some u => (parseStrBody rest2).map (fun p => (u :: p.1, p.2))
        | none => none
    else (parseStrBody rest).map (fun p => (c :: p.1, p.2))

theorem parseStrBody_quote (rest : List Char) :
    parseStrBody ('"' :: rest) = some ([], rest) := by
  rw [parseStrBody.eq_def]
  simp

theorem parseStrBody_backslash (d : Char) (rest : List Char) :
    parseStrBody ('\\' :: d :: rest) =
      match unescChar d with
      | some u => (parseStrBody rest).map (fun p => (u :: p.1, p.2))
      | none => none := by
  rw [parseStrBody.eq_def]
  simp

theorem parseStrBody_plain (c : Char) (rest : List Char)
    (h1 : ¬ c = '"') (h2 : ¬ c = '\\') :
    parseStrBody (c :: rest) = (parseStrBody rest).map (fun p => (c :: p.1, p.2)) := by
  rw [parseStrBody.eq_def]
  simp [h1, h2]

theorem parseStrBody_escape (l rest : List Char) :
    parseStrBody (escapeChars l ++ '"' :: rest) = some (l, rest) := by
  induction l with
  | nil => simp [escapeChars, parseStrBody_quote]
  | cons c t ih =>
    have hexp : escapeChars (c :: t) = escChar c ++ escapeChars t := by
      simp [escapeChars]
    rw [hexp]
    by_cases h1 : c = '"' ∨ c = '\\'
    · have hesc : escChar c = ['\\', c] := by simp [escChar, h1]
      have hu : unescChar c = some c := by
        rcases h1 with h | h <;> simp [unescChar, h]
      rw [hesc]
      simp only [List.cons_append, List.append_assoc, List.nil_append]
      rw [parseStrBody_backslash, hu, ih]
      rfl
    · by_cases h2 : c = '\n'
      · have hesc : escChar c = ['\\', 'n'] := by simp [escChar, h1, h2]
        rw [hesc]
        simp only [List.cons_append, List.nil_append]
        rw [parseStrBody_backslash]
        have hu : unescChar 'n' = some '\n' := by rfl
        rw [hu, ih, h2]
        rfl
      · by_cases h3 : c = '\t'
        · have hesc : escChar c = ['\\', 't'] := by simp [escChar, h1, h2, h3]
          rw [hesc]
          simp only [List.cons_append, List.nil_append]
          rw [parseStrBody_backslash]
          have hu : unescChar 't' = some '\t' := by rfl
          rw [hu, ih, h3]
          rfl
        · by_cases h4 : c = '\r'
          · have hesc : escChar c = ['\\', 'r'] := by simp [escChar, h1, h2, h3, h4]
            rw [hesc]
            simp only [List.cons_append, List.nil_append]
            rw [parseStrBody_backslash]
            have hu : unescChar 'r' = some '\r' := by rfl
            rw [hu, ih, h4]
            rfl
          · have hesc : escChar c = [c] := by simp [escChar, h1, h2, h3, h4]
            rw [hesc]
            have hq : ¬ c = '"' := fun h => h1 (Or.inl h)
            have hb : ¬ c = '\\' := fun h => h1 (Or.inr h)
            simp only [List.cons_append, List.nil_append]
            rw [parseStrBody_plain c _ hq hb, ih]
            rfl

/-! ### Decimal printing and reading of JSON numbers -/

/-- Number of fractional digits used by the embedded number printer. -/
def fracCount : Nat := 30

/-- The rational has a finite decimal expansion of at most `fracCount`
fractional digits (true of every number the application serializes). -/
def decOkQ (q : ℚ) : Bool := (10 ^ fracCount) % q.den == 0

/-- Left-pad a digit string with zeros to the given length. -/
def leftPad (n : Nat) (l : List Char) : List Char :=
  List.replicate (n - l.length) '0' ++ l

/-- Print a rational with exactly `fracCount` fractional digits. -/
def numToChars (q : ℚ) : List Char :=
  let m : Int := q.num * (10 ^ fracCount) / (q.den : Int)
  let ds := leftPad (fracCount + 1) (natDigits m.natAbs)
  (if q.num < 0 then ['-'] else []) ++
    ds.take (ds.length - fracCount) ++ '.' :: ds.drop (ds.length - fracCount)

/-- Read an unsigned decimal number (integer part, optional fraction). -/
def parsePosNum (cs : List Char) : Option (ℚ × List Char) :=
  let ds := cs.takeWhile isDig
  let rest := cs.dropWhile isDig
  if ds.isEmpty then none
  else
    match rest with
    | '.' :: rest2 =>
      let fs := rest2.takeWhile isDig
      let rest3 := rest2.dropWhile isDig
      if fs.isEmpty then none
      else some (((digitsVal ds : ℚ) * 10 ^ fs.length + (digitsVal fs : ℚ)) / 10 ^ fs.length,
                 rest3)
    | _ => some ((digitsVal ds : ℚ), rest)

/-- Read an optionally signed decimal number. -/
def parseNum : List Char → Option (ℚ × List Char)
  | [] => none
  | c :: rest =>
    if c = '-' then (parsePosNum rest).map (fun p => (-p.1, p.2))
    else parsePosNum (c :: rest)

theorem digitsVal_replicate_zero (k : Nat) :
    digitsVal (List.replicate k '0') = 0 := by
  induction k with
  | zero => rfl
  | succ n ih =>
    have : List.replicate (n + 1) '0' = List.replicate n '0' ++ ['0'] := by
      rw [List.replicate_succ']
    rw [this, digitsVal_append, ih]
    rfl

theorem takeWhile_append_of_all {p : Char → Bool} {l1 l2 : List Char}
    (h1 : ∀ c ∈ l1, p c = true) (h2 : ∀ c, l2.head? = some c → p c = false) :
    (l1 ++ l2).takeWhile p = l1 ∧ (l1 ++ l2).dropWhile p = l2 := by
  induction l1 with
  | nil =>
    simp only [List.nil_append]
    cases l2 with
    | nil => simp
    | cons c t =>
      have := h2 c rfl
      constructor
      · simp [List.takeWhile_cons, this]
      · simp [List.dropWhile_cons, this]
  | cons c t ih =>
    have hc := h1 c (List.mem_cons_self c t)
    have ⟨iht, ihd⟩ := ih (fun x hx => h1 x (List.mem_cons_of_mem _ hx))
    constructor
    · simp [List.takeWhile_cons, hc, iht]
    · simp [List.dropWhile_cons, hc, ihd]

theorem parseNum_cons (c : Char) (cs : List Char) :
    parseNum (c :: cs) =
      if c = '-' then (parsePosNum cs).map (fun p => (-p.1, p.2))
      else parsePosNum (c :: cs) := rfl

theorem parsePosNum_split (intDs frDs rest : List Char)
    (hint : intDs ≠ []) (hfr : frDs ≠ [])
    (hdint : ∀ c ∈ intDs, isDig c = true) (hdfr : ∀ c ∈ frDs, isDig c = true)
    (hrest : ∀ c, rest.head? = some c → isDig c = false) :
    parsePosNum (intDs ++ '.' :: (frDs ++ rest)) =
      some (((digitsVal intDs : ℚ) * 10 ^ frDs.length + (digitsVal frDs : ℚ)) /
              10 ^ frDs.length, rest) := by
  have hdot : ∀ c, ('.' :: (frDs ++ rest)).head? = some c → isDig c = false := by
    intro c hc
    simp only [List.head?_cons, Option.some.injEq] at hc
    rw [← hc]
    rfl
  have h1 := takeWhile_append_of_all hdint hdot
  have h2 := takeWhile_append_of_all hdfr hrest
  simp only [parsePosNum, h1.1, h1.2, h2.1, h2.2]
  have hi : intDs.isEmpty = false := by simpa [List.isEmpty_iff] using hint
  have hf : frDs.isEmpty = false := by simpa [List.isEmpty_iff] using hfr
  rw [hi, hf]
  simp

theorem parseNum_numToChars (q : ℚ) (rest : List Char)
    (hq : decOkQ q = true)
    (hrest : ∀ c, rest.head? = some c → isDig c = false) :
    parseNum (numToChars q ++ rest) = some (q, rest) := by
  have hfc : fracCount = 30 := rfl
  have hden : q.den ∣ 10 ^ fracCount := by
    apply Nat.dvd_of_mod_eq_zero
    simpa [decOkQ] using hq
  have hdpos : 0 < q.den := q.pos
  have hdenZ : ((q.den : Int)) ∣ q.num * 10 ^ fracCount := by
    apply Dvd.dvd.mul_left
    have h := Int.natCast_dvd_natCast.mpr hden
    push_cast at h
    exact h
  have hden0 : (q.den : ℚ) ≠ 0 := by
    exact_mod_cast hdpos.ne'
  set m : Int := q.num * 10 ^ fracCount / (q.den : Int) with hm_def
  have hm : m * (q.den : Int) = q.num * 10 ^ fracCount := Int.ediv_mul_cancel hdenZ
  have hmq : (m : ℚ) = q * 10 ^ fracCount := by
    have hcast : (m : ℚ) * (q.den : ℚ) = (q.num : ℚ) * 10 ^ fracCount := by
      exact_mod_cast congrArg (fun z : Int => (z : ℚ)) hm
    have hq' : (q.num : ℚ) = q * (q.den : ℚ) :=
      (div_eq_iff hden0).mp (Rat.num_div_den q)
    have h2 : (m : ℚ) * (q.den : ℚ) = (q * 10 ^ fracCount) * (q.den : ℚ) := by
      rw [hcast, hq']
      ring
    exact mul_right_cancel₀ hden0 h2
  set ds : List Char := leftPad (fracCount + 1) (natDigits m.natAbs) with hds_def
  have hdsval : digitsVal ds = m.natAbs := by
    rw [hds_def, leftPad, digitsVal_append, digitsVal_replicate_zero, digitsVal_natDigits]
    ring
  have hdsdig : ∀ c ∈ ds, isDig c = true := by
    intro c hc
    rw [hds_def, leftPad] at hc
    rcases List.mem_append.mp hc with h | h
    · rw [List.eq_of_mem_replicate h]
      rfl
    · exact natDigits_isDig _ c h
  have hdslen : fracCount + 1 ≤ ds.length := by
    rw [hds_def, leftPad]
    simp only [List.length_append, List.length_replicate]
    omega
  set k : Nat := ds.length - fracCount with hk_def
  set intDs : List Char := ds.take k with hint_def
  set frDs : List Char := ds.drop k with hfr_def
  have hsplit : intDs ++ frDs = ds := List.take_append_drop k ds
  have hfrlen : frDs.length = fracCount := by
    rw [hfr_def, List.length_drop]
    omega
  have hintlen : intDs.length = k := by
    rw [hint_def, List.length_take]
    omega
  have hintne : intDs ≠ [] := by
    intro h
    rw [h] at hintlen
    simp at hintlen
    omega
  have hfrne : frDs ≠ [] := by
    intro h
    rw [h] at hfrlen
    simp at hfrlen
    omega
  have hdint : ∀ c ∈ intDs, isDig c = true := fun c hc =>
    hdsdig c (List.take_subset k ds hc)
  have hdfr : ∀ c ∈ frDs, isDig c = true := fun c hc =>
    hdsdig c (List.drop_subset k ds hc)
  have hvals : digitsVal intDs * 10 ^ fracCount + digitsVal frDs = m.natAbs := by
    rw [← hfrlen, ← digitsVal_append, hsplit, hdsval]
  have hvalQ : ((digitsVal intDs : ℚ) * 10 ^ frDs.length + (digitsVal frDs : ℚ)) =
      (m.natAbs : ℚ) := by
    rw [hfrlen]
    exact_mod_cast hvals
  have hsplit' := parsePosNum_split intDs frDs rest hintne hfrne hdint hdfr hrest
  have hconcat : numToChars q = (if q.num < 0 then ['-'] else []) ++
      (intDs ++ '.' :: frDs) := by
    rw [hint_def, hfr_def, hk_def, hds_def, hm_def]
    simp [numToChars, List.append_assoc]
  rw [hconcat]
  by_cases hneg : q.num < 0
  · have hmneg : m < 0 := by
      have h1 : m * (q.den : Int) < 0 := by
        rw [hm]
        have h10 : (0 : Int) < 10 ^ fracCount := by positivity
        exact mul_neg_of_neg_of_pos hneg h10
      by_contra h2
      push_neg at h2
      have hd : (0 : Int) < (q.den : Int) := by exact_mod_cast hdpos
      nlinarith
    have habs : ((m.natAbs : ℚ)) = -(m : ℚ) := by
      rw [Int.cast_natAbs, abs_of_neg hmneg]
      push_cast
      ring
    rw [if_pos hneg]
    simp only [List.singleton_append, List.cons_append, List.append_assoc,
      List.nil_append]
    rw [parseNum_cons, if_pos rfl, hsplit']
    simp only [Option.map_some']
    congr 1
    refine Prod.ext ?_ rfl
    show -(((digitsVal intDs : ℚ) * 10 ^ frDs.length + (digitsVal frDs : ℚ)) /
      10 ^ frDs.length) = q
    rw [hvalQ, habs, hfrlen, hmq]
    field_simp
  · have hmpos : 0 ≤ m := by
      have h1 : 0 ≤ m * (q.den : Int) := by
        rw [hm]
        push_neg at hneg
        have h10 : (0 : Int) ≤ 10 ^ fracCount := by positivity
        exact mul_nonneg hneg h10
      by_contra h2
      push_neg at h2
      have hd : (0 : Int) < (q.den : Int) := by exact_mod_cast hdpos
      nlinarith
    have habs : ((m.natAbs : ℚ)) = (m : ℚ) := by
      rw [Int.cast_natAbs, abs_of_nonneg hmpos]
    rw [if_neg hneg]
    simp only [List.nil_append, List.append_assoc, List.cons_append]
    obtain ⟨c0, t0, hc0⟩ := List.exists_cons_of_ne_nil hintne
    have hc0dig : isDig c0 = true := hdint c0 (by rw [hc0]; exact List.mem_cons_self c0 t0)
    have hc0ne : ¬ c0 = '-' := by
      intro h
      rw [h] at hc0dig
      exact absurd hc0dig (by decide)
    rw [hc0, List.cons_append, parseNum_cons, if_neg hc0ne]
    rw [← List.cons_append c0 t0 ('.' :: (frDs ++ rest)), ← hc0, hsplit']
    congr 1
    refine Prod.ext ?_ rfl
    show (((digitsVal intDs : ℚ) * 10 ^ frDs.length + (digitsVal frDs : ℚ)) /
      10 ^ frDs.length) = q
    rw [hvalQ, habs, hfrlen, hmq]
    field_simp

/-! ### The JSON printer and reader -/

mutual

/-- Fuel measure of a JSON value. -/
def jsize : Json → Nat
  | .null => 1
  | .bool _ => 1
  | .num _ => 1
  | .str _ => 1
  | .arr items => 1 + asize items
  | .obj fields => 1 + osize fields

/-- Fuel measure of array elements. -/
def asize : JsonArr → Nat
  | .nil => 0
  | .cons h t => 1 + jsize h + asize t

/-- Fuel measure of object members. -/
def osize : JsonObj → Nat
  | .nil => 0
  | .cons _ v t => 1 + jsize v + osize t

end



mutual

/-- `JSON.stringify` of a value (no whitespace, like the Node default). -/
def stringifyChars : Json → List Char
  | .null => 'n' :: ['u', 'l', 'l']
  | .bool true => 't' :: ['r', 'u', 'e']
  | .bool false => 'f' :: ['a', 'l', 's', 'e']
  | .num q => numToChars q
  | .str s => '"' :: (escapeChars s.data ++ ['"'])
  | .arr .nil => ['[', ']']
  | .arr (.cons h t) => '[' :: stringifyItems h t
  | .obj .nil => ['\x7b', '\x7d']
  | .obj (.cons k v t) => '\x7b' :: stringifyFields k v t
termination_by v => jsize v
decreasing_by all_goals (simp [jsize, asize, osize]; try omega)

/-- Comma-separated array elements followed by the closing bracket. -/
def stringifyItems : Json → JsonArr → List Char
  | h, t =>
    stringifyChars h ++
      (match t with
       | .nil => [']']
       | .cons h2 t2 => ',' :: stringifyItems h2 t2)
termination_by h t => asize (JsonArr.cons h t)
decreasing_by all_goals (simp [jsize, asize, osize]; try omega)

/-- Comma-separated object members followed by the closing brace. -/
def stringifyFields : String → Json → JsonObj → List Char
  | k, v, t =>
    '"' :: (escapeChars k.data ++ '"' :: ':' ::
      (stringifyChars v ++
        (match t with
         | .nil => ['\x7d']
         | .cons k2 v2 t2 => ',' :: stringifyFields k2 v2 t2)))
termination_by k v t => osize (JsonObj.cons k v t)
decreasing_by all_goals (simp [jsize, asize, osize]; try omega)

end

mutual

/-- `JSON.parse`, fuelled; returns the value and the unconsumed input. -/
def parseJson : Nat → List Char → Option (Json × List Char)
  | 0, _ => none
  | fuel + 1, cs =>
    match cs with
    | [] => none
    | c :: cs2 =>
      if c = '"' then (parseStrBody cs2).map (fun p => (Json.str (String.mk p.1), p.2))
      else if c = '[' then
        match cs2 with
        | [] => none
        | c2 :: cs3 =>
          if c2 = ']' then some (Json.arr .nil, cs3)
          else (parseItems fuel (c2 :: cs3)).map (fun p => (Json.arr p.1, p.2))
      else if c = '\x7b' then
        match cs2 with
        | [] => none
        | c2 :: cs3 =>
          if c2 = '\x7d' then some (Json.obj .nil, cs3)
          else (parseFields fuel (c2 :: cs3)).map (fun p => (Json.obj p.1, p.2))
      else if c = 'n' then
        match cs2 with
        | 'u' :: 'l' :: 'l' :: rest => some (Json.null, rest)
        | _ => none
      else if c = 't' then
        match cs2 with
        | 'r' :: 'u' :: 'e' :: rest => some (Json.bool true, rest)
        | _ => none
      else if c = 'f' then
        match cs2 with
        | 'a' :: 'l' :: 's' :: 'e' :: rest => some (Json.bool false, rest)
        | _ => none
      else (parseNum (c :: cs2)).map (fun p => (Json.num p.1, p.2))

/-- Parse one or more comma-separated array elements up to `]`. -/
def parseItems : Nat → List Char → Option (JsonArr × List Char)
  | 0, _ => none
  | fuel + 1, cs =>
    match parseJson fuel cs with
    | none => none
    | some (v, rest) =>
      match rest with
      | ',' :: rest2 => (parseItems fuel rest2).map (fun p => (JsonArr.cons v p.1, p.2))
      | ']' :: rest2 => some (JsonArr.cons v .nil, rest2)
      | _ => none

/-- Parse one or more comma-separated object members up to the closing
brace. -/
def parseFields : Nat → List Char → Option (JsonObj × List Char)
  | 0, _ => none
  | fuel + 1, cs =>
    match cs with
    | '"' :: cs2 =>
      (match parseStrBody cs2 with
       | none => none
       | some (kcs, rest) =>
         match rest with
         | ':' :: rest2 =>
           (match parseJson fuel rest2 with
            | none => none
            | some (v, rest3) =>
              match rest3 with
              | ',' :: rest4 =>
                (parseFields fuel rest4).map
                  (fun p => (JsonObj.cons (String.mk kcs) v p.1, p.2))
              | '\x7d' :: rest4 => some (JsonObj.cons (String.mk kcs) v .nil, rest4)
              | _ => none)
         | _ => none)
    | _ => none

end

mutual

/-- All numbers in the value have a finite decimal expansion of at most
`fracCount` digits (every number the application stores satisfies this). -/
def jsonDecOk : Json → Bool
  | .num q => decOkQ q
  | .arr items => arrDecOk items
  | .obj fields => objDecOk fields
  | _ => true

/-- `jsonDecOk` on array elements. -/
def arrDecOk : JsonArr → Bool
  | .nil => true
  | .cons h t => jsonDecOk h && arrDecOk t

/-- `jsonDecOk` on object members. -/
def objDecOk : JsonObj → Bool
  | .nil => true
  | .cons _ v t => jsonDecOk v && objDecOk t

end


/-! ### Round trip of the JSON printer and reader -/

theorem mkData (s : String) : String.mk s.data = s := rfl

theorem jsize_pos (v : Json) : 1 ≤ jsize v := by
  cases v <;> simp [jsize]

theorem numToChars_head (q : ℚ) :
    ∃ c cs', numToChars q = c :: cs' ∧ (c = '-' ∨ isDig c = true) := by
  set m : Int := q.num * 10 ^ fracCount / (q.den : Int) with hm_def
  set ds : List Char := leftPad (fracCount + 1) (natDigits m.natAbs) with hds_def
  have hdsdig : ∀ c ∈ ds, isDig c = true := by
    intro c hc
    rw [hds_def, leftPad] at hc
    rcases List.mem_append.mp hc with h | h
    · rw [List.eq_of_mem_replicate h]
      rfl
    · exact natDigits_isDig _ c h
  have hdslen : fracCount + 1 ≤ ds.length := by
    rw [hds_def, leftPad]
    simp only [List.length_append, List.length_replicate]
    omega
  set k : Nat := ds.length - fracCount with hk_def
  by_cases hneg : q.num < 0
  · refine ⟨'-', ds.take k ++ '.' :: ds.drop k, ?_, Or.inl rfl⟩
    rw [numToChars, if_pos hneg, ← hm_def, ← hds_def, ← hk_def]
    simp
  · have hintlen : (ds.take k).length = k := by
      rw [List.length_take]
      omega
    have hintne : ds.take k ≠ [] := by
      intro h
      rw [h] at hintlen
      simp at hintlen
      omega
    obtain ⟨c0, t0, hc0⟩ := List.exists_cons_of_ne_nil hintne
    refine ⟨c0, t0 ++ '.' :: ds.drop k, ?_, Or.inr ?_⟩
    · rw [numToChars, if_neg hneg, ← hm_def, ← hds_def, ← hk_def, hc0]
      simp
    · exact hdsdig c0 (List.take_subset k ds (by rw [hc0]; exact List.mem_cons_self c0 t0))

/-- Possible first characters of a serialized JSON value. -/
def headOk (c : Char) : Bool :=
  c = '-' || isDig c || c = '"' || c = '[' || c = '\x7b' ||
  c = 'n' || c = 't' || c = 'f'

theorem headOk_ne_close (c : Char) (h : headOk c = true) :
    ¬ c = ']' ∧ ¬ c = '\x7d' := by
  constructor <;> intro hc <;> subst hc <;> simp [headOk, isDig] at h

theorem numHead_conds (c : Char) (h : c = '-' ∨ isDig c = true) :
    ¬ c = '"' ∧ ¬ c = '[' ∧ ¬ c = '\x7b' ∧ ¬ c = 'n' ∧ ¬ c = 't' ∧ ¬ c = 'f' := by
  refine ⟨?_, ?_, ?_, ?_, ?_, ?_⟩ <;> intro hc <;> subst hc <;>
    rcases h with h | h <;> simp [isDig] at h

theorem stringifyChars_head (v : Json) :
    ∃ c cs', stringifyChars v = c :: cs' ∧ headOk c = true := by
  cases v with
  | null => exact ⟨'n', ['u', 'l', 'l'], by simp [stringifyChars], by decide⟩
  | bool b =>
    cases b with
    | true => exact ⟨'t', ['r', 'u', 'e'], by simp [stringifyChars], by decide⟩
    | false => exact ⟨'f', ['a', 'l', 's', 'e'], by simp [stringifyChars], by decide⟩
  | num q =>
    obtain ⟨c, cs', hn, hc⟩ := numToChars_head q
    refine ⟨c, cs', by simp [stringifyChars, hn], ?_⟩
    rcases hc with h | h
    · simp [headOk, h]
    · simp [headOk, h]
  | str s =>
    exact ⟨'"', escapeChars s.data ++ ['"'], by simp [stringifyChars], by decide⟩
  | arr items =>
    cases items with
    | nil => exact ⟨'[', [']'], by simp [stringifyChars], by decide⟩
    | cons h t => exact ⟨'[', stringifyItems h t, by simp [stringifyChars], by decide⟩
  | obj fields =>
    cases fields with
    | nil => exact ⟨'\x7b', ['\x7d'], by simp [stringifyChars], by decide⟩
    | cons k v t =>
      exact ⟨'\x7b', stringifyFields k v t, by simp [stringifyChars], by decide⟩

theorem parseJson_num_go (fuel : Nat) (c : Char) (cs2 : List Char)
    (h : c = '-' ∨ isDig c = true) :
    parseJson (fuel + 1) (c :: cs2) =
      (parseNum (c :: cs2)).map (fun p => (Json.num p.1, p.2)) := by
  obtain ⟨h1, h2, h3, h4, h5, h6⟩ := numHead_conds c h
  rw [parseJson.eq_def]
  simp [h1, h2, h3, h4, h5, h6]

theorem parseJson_arr_go (fuel : Nat) (c2 : Char) (cs3 : List Char) (h : ¬ c2 = ']') :
    parseJson (fuel + 1) ('[' :: c2 :: cs3) =
      (parseItems fuel (c2 :: cs3)).map (fun p => (Json.arr p.1, p.2)) := by
  rw [parseJson.eq_def]
  simp [h]

theorem parseJson_obj_go (fuel : Nat) (c2 : Char) (cs3 : List Char) (h : ¬ c2 = '\x7d') :
    parseJson (fuel + 1) ('\x7b' :: c2 :: cs3) =
      (parseFields fuel (c2 :: cs3)).map (fun p => (Json.obj p.1, p.2)) := by
  rw [parseJson.eq_def]
  simp [h]

theorem parseJson_quote (fuel : Nat) (cs2 : List Char) :
    parseJson (fuel + 1) ('"' :: cs2) =
      (parseStrBody cs2).map (fun p => (Json.str (String.mk p.1), p.2)) := by
  rw [parseJson.eq_def]
  simp

theorem parseItems_succ (fuel : Nat) (cs : List Char) :
    parseItems (fuel + 1) cs =
      match parseJson fuel cs with
      | none => none
      | some (v, rest) =>
        match rest with
        | ',' :: rest2 => (parseItems fuel rest2).map (fun p => (JsonArr.cons v p.1, p.2))
        | ']' :: rest2 => some (JsonArr.cons v .nil, rest2)
        | _ => none := rfl

theorem parseFields_quote (fuel : Nat) (cs2 : List Char) :
    parseFields (fuel + 1) ('"' :: cs2) =
      (match parseStrBody cs2 with
       | none => none
       | some (kcs, rest) =>
         match rest with
         | ':' :: rest2 =>
           (match parseJson fuel rest2 with
            | none => none
            | some (v, rest3) =>
              match rest3 with
              | ',' :: rest4 =>
                (parseFields fuel rest4).map
                  (fun p => (JsonObj.cons (String.mk kcs) v p.1, p.2))
              | '\x7d' :: rest4 => some (JsonObj.cons (String.mk kcs) v .nil, rest4)
              | _ => none)
         | _ => none) := by
  rw [parseFields.eq_def]
  simp



theorem stringifyItems_eq (hd : Json) (t : JsonArr) :
    ∃ tail, stringifyItems hd t = stringifyChars hd ++ tail := by
  cases t with
  | nil => exact ⟨[']'], by simp [stringifyItems]⟩
  | cons h2 t2 => exact ⟨',' :: stringifyItems h2 t2, by simp [stringifyItems]⟩

theorem parseItems_step_done (fuel : Nat) (cs r2 : List Char) (v : Json)
    (h : parseJson fuel cs = some (v, ']' :: r2)) :
    parseItems (fuel + 1) cs = some (JsonArr.cons v .nil, r2) := by
  rw [parseItems_succ, h]
  rfl

theorem parseItems_step_more (fuel : Nat) (cs r2 : List Char) (v : Json)
    (h : parseJson fuel cs = some (v, ',' :: r2)) :
    parseItems (fuel + 1) cs =
      (parseItems fuel r2).map (fun p => (JsonArr.cons v p.1, p.2)) := by
  rw [parseItems_succ, h]
  rfl

theorem parseFields_step_done (fuel : Nat) (kd X r4 : List Char) (v : Json)
    (h : parseJson fuel X = some (v, '\x7d' :: r4)) :
    parseFields (fuel + 1) ('"' :: (escapeChars kd ++ '"' :: ':' :: X)) =
      some (JsonObj.cons (String.mk kd) v .nil, r4) := by
  rw [parseFields_quote]
  simp only [parseStrBody_escape, h]

theorem parseFields_step_more (fuel : Nat) (kd X r4 : List Char) (v : Json)
    (h : parseJson fuel X = some (v, ',' :: r4)) :
    parseFields (fuel + 1) ('"' :: (escapeChars kd ++ '"' :: ':' :: X)) =
      (parseFields fuel r4).map
        (fun p => (JsonObj.cons (String.mk kd) v p.1, p.2)) := by
  rw [parseFields_quote]
  simp only [parseStrBody_escape, h]

mutual

theorem parseJson_stringify (v : Json) (fuel : Nat) (rest : List Char)
    (hfuel : jsize v ≤ fuel) (hdec : jsonDecOk v = true)
    (hrest : ∀ c, rest.head? = some c → isDig c = false) :
    parseJson fuel (stringifyChars v ++ rest) = some (v, rest) := by
  cases fuel with
  | zero =>
    have := jsize_pos v
    omega
  | succ fuel =>
    cases v with
    | null =>
      have hs : stringifyChars Json.null = ['n', 'u', 'l', 'l'] := by
        simp [stringifyChars]
      rw [hs]
      rfl
    | bool b =>
      cases b with
      | true =>
        have hs : stringifyChars (Json.bool true) = ['t', 'r', 'u', 'e'] := by
          simp [stringifyChars]
        rw [hs]
        rfl
      | false =>
        have hs : stringifyChars (Json.bool false) = ['f', 'a', 'l', 's', 'e'] := by
          simp [stringifyChars]
        rw [hs]
        rfl
    | num q =>
      obtain ⟨c, cs', hn, hc⟩ := numToChars_head q
      have hs : stringifyChars (Json.num q) = numToChars q := by simp [stringifyChars]
      rw [hs, hn, List.cons_append, parseJson_num_go fuel c _ hc, ← List.cons_append, ← hn,
        parseNum_numToChars q rest (by simpa [jsonDecOk] using hdec) hrest]
      rfl
    | str s =>
      have hs : stringifyChars (Json.str s) ++ rest =
          '"' :: (escapeChars s.data ++ '"' :: rest) := by
        simp [stringifyChars]
      rw [hs, parseJson_quote, parseStrBody_escape]
      simp [mkData]
    | arr items =>
      cases items with
      | nil =>
        have hs : stringifyChars (Json.arr JsonArr.nil) = ['[', ']'] := by
          simp [stringifyChars]
        rw [hs]
        rfl
      | cons hd t =>
        obtain ⟨c, cs', hh, hcOk⟩ := stringifyChars_head hd
        have hcne : ¬ c = ']' := (headOk_ne_close c hcOk).1
        obtain ⟨tail, htail⟩ := stringifyItems_eq hd t
        have hform : stringifyChars (Json.arr (JsonArr.cons hd t)) ++ rest =
            '[' :: (stringifyItems hd t ++ rest) := by
          simp [stringifyChars]
        have hx : stringifyItems hd t ++ rest = c :: (cs' ++ (tail ++ rest)) := by
          rw [htail, hh]
          simp
        rw [hform, hx, parseJson_arr_go fuel c _ hcne, ← hx,
          parseItems_stringify hd t fuel rest
            (by simp [jsize] at hfuel; omega)
            (by simpa [jsonDecOk] using hdec)]
        rfl
    | obj fields =>
      cases fields with
      | nil =>
        have hs : stringifyChars (Json.obj JsonObj.nil) = ['\x7b', '\x7d'] := by
          simp [stringifyChars]
        rw [hs]
        rfl
      | cons k v t =>
        have hform : stringifyChars (Json.obj (JsonObj.cons k v t)) ++ rest =
            '\x7b' :: (stringifyFields k v t ++ rest) := by
          simp [stringifyChars]
        have hsf : ∃ Y, stringifyFields k v t = '"' :: Y := by
          cases t with
          | nil =>
            exact ⟨escapeChars k.data ++ '"' :: ':' :: (stringifyChars v ++ ['\x7d']),
              by simp [stringifyFields]⟩
          | cons k2 v2 t2 =>
            exact ⟨escapeChars k.data ++ '"' :: ':' ::
              (stringifyChars v ++ ',' :: stringifyFields k2 v2 t2),
              by simp [stringifyFields]⟩
        obtain ⟨Y, hY⟩ := hsf
        have hx : stringifyFields k v t ++ rest = '"' :: (Y ++ rest) := by
          rw [hY]
          simp
        rw [hform, hx, parseJson_obj_go fuel '"' _ (by decide), ← hx,
          parseFields_stringify k v t fuel rest
            (by simp [jsize] at hfuel; omega)
            (by simpa [jsonDecOk] using hdec)]
        rfl
termination_by jsize v
decreasing_by all_goals (subst_vars; simp [jsize, asize, osize]; try omega)

theorem parseItems_stringify (hd : Json) (t : JsonArr) (fuel : Nat) (rest : List Char)
    (hfuel : asize (JsonArr.cons hd t) ≤ fuel) (hdec : arrDecOk (JsonArr.cons hd t) = true) :
    parseItems fuel (stringifyItems hd t ++ rest) = some (JsonArr.cons hd t, rest) := by
  cases fuel with
  | zero => simp [asize] at hfuel
  | succ fuel =>
    have hj : jsize hd ≤ fuel := by
      simp [asize] at hfuel
      omega
    have hdj : jsonDecOk hd = true := by
      simp [arrDecOk] at hdec
      exact hdec.1
    cases t with
    | nil =>
      have hform : stringifyItems hd JsonArr.nil ++ rest =
          stringifyChars hd ++ (']' :: rest) := by
        simp [stringifyItems]
      rw [hform]
      exact parseItems_step_done fuel _ rest hd
        (parseJson_stringify hd fuel (']' :: rest) hj hdj
          (by intro c hc; simp at hc; subst hc; rfl))
    | cons h2 t2 =>
      have hform : stringifyItems hd (JsonArr.cons h2 t2) ++ rest =
          stringifyChars hd ++ (',' :: (stringifyItems h2 t2 ++ rest)) := by
        simp [stringifyItems]
      rw [hform, parseItems_step_more fuel _ _ hd
          (parseJson_stringify hd fuel _ hj hdj
            (by intro c hc; simp at hc; subst hc; rfl)),
        parseItems_stringify h2 t2 fuel rest
          (by simp [asize] at hfuel ⊢; omega)
          (by simp [arrDecOk] at hdec ⊢; exact hdec.2)]
      rfl
termination_by asize (JsonArr.cons hd t)
decreasing_by all_goals (subst_vars; simp [jsize, asize, osize]; try omega)

theorem parseFields_stringify (k : String) (v : Json) (t : JsonObj) (fuel : Nat)
    (rest : List Char)
    (hfuel : osize (JsonObj.cons k v t) ≤ fuel)
    (hdec : objDecOk (JsonObj.cons k v t) = true) :
    parseFields fuel (stringifyFields k v t ++ rest) = some (JsonObj.cons k v t, rest) := by
  cases fuel with
  | zero => simp [osize] at hfuel
  | succ fuel =>
    have hj : jsize v ≤ fuel := by
      simp [osize] at hfuel
      omega
    have hdj : jsonDecOk v = true := by
      simp [objDecOk] at hdec
      exact hdec.1
    cases t with
    | nil =>
      have hform : stringifyFields k v JsonObj.nil ++ rest =
          '"' :: (escapeChars k.data ++ '"' :: ':' ::
            (stringifyChars v ++ ('\x7d' :: rest))) := by
        simp [stringifyFields]
      rw [hform, parseFields_step_done fuel k.data _ rest v
          (parseJson_stringify v fuel _ hj hdj
            (by intro c hc; simp at hc; subst hc; rfl)),
        mkData]
    | cons k2 v2 t2 =>
      have hform : stringifyFields k v (JsonObj.cons k2 v2 t2) ++ rest =
          '"' :: (escapeChars k.data ++ '"' :: ':' ::
            (stringifyChars v ++ (',' :: (stringifyFields k2 v2 t2 ++ rest)))) := by
        simp [stringifyFields]
      rw [hform, parseFields_step_more fuel k.data _ _ v
          (parseJson_stringify v fuel _ hj hdj
            (by intro c hc; simp at hc; subst hc; rfl)),
        parseFields_stringify k2 v2 t2 fuel rest
          (by simp [osize] at hfuel ⊢; omega)
          (by simp [objDecOk] at hdec ⊢; exact hdec.2),
        mkData]
      rfl
termination_by osize (JsonObj.cons k v t)
decreasing_by all_goals (subst_vars; simp [jsize, asize, osize]; try omega)

end


mutual

theorem jsize_le_len (v : Json) : jsize v ≤ (stringifyChars v).length := by
  cases v with
  | null =>
    have hs : stringifyChars Json.null = ['n', 'u', 'l', 'l'] := by simp [stringifyChars]
    rw [hs]
    simp [jsize]
  | bool b =>
    cases b with
    | true =>
      have hs : stringifyChars (Json.bool true) = ['t', 'r', 'u', 'e'] := by
        simp [stringifyChars]
      rw [hs]
      simp [jsize]
    | false =>
      have hs : stringifyChars (Json.bool false) = ['f', 'a', 'l', 's', 'e'] := by
        simp [stringifyChars]
      rw [hs]
      simp [jsize]
  | num q =>
    obtain ⟨c, cs', hn, _⟩ := numToChars_head q
    have hs : stringifyChars (Json.num q) = c :: cs' := by simp [stringifyChars, hn]
    rw [hs]
    simp [jsize]
  | str s =>
    have hs : stringifyChars (Json.str s) = '"' :: (escapeChars s.data ++ ['"']) := by
      simp [stringifyChars]
    rw [hs]
    simp [jsize]
  | arr items =>
    cases items with
    | nil =>
      have hs : stringifyChars (Json.arr JsonArr.nil) = ['[', ']'] := by
        simp [stringifyChars]
      rw [hs]
      simp [jsize, asize]
    | cons hd t =>
      have hs : stringifyChars (Json.arr (JsonArr.cons hd t)) =
          '[' :: stringifyItems hd t := by
        simp [stringifyChars]
      rw [hs]
      have := asize_le_len hd t
      simp [jsize]
      omega
  | obj fields =>
    cases fields with
    | nil =>
      have hs : stringifyChars (Json.obj JsonObj.nil) = ['\x7b', '\x7d'] := by
        simp [stringifyChars]
      rw [hs]
      simp [jsize, osize]
    | cons k v t =>
      have hs : stringifyChars (Json.obj (JsonObj.cons k v t)) =
          '\x7b' :: stringifyFields k v t := by
        simp [stringifyChars]
      rw [hs]
      have := osize_le_len k v t
      simp [jsize]
      omega
termination_by jsize v
decreasing_by all_goals (subst_vars; simp [jsize, asize, osize]; try omega)

theorem asize_le_len (hd : Json) (t : JsonArr) :
    asize (JsonArr.cons hd t) ≤ (stringifyItems hd t).length := by
  cases t with
  | nil =>
    have hs : stringifyItems hd JsonArr.nil = stringifyChars hd ++ [']'] := by
      simp [stringifyItems]
    rw [hs]
    have := jsize_le_len hd
    simp [asize]
    omega
  | cons h2 t2 =>
    have hs : stringifyItems hd (JsonArr.cons h2 t2) =
        stringifyChars hd ++ ',' :: stringifyItems h2 t2 := by
      simp [stringifyItems]
    rw [hs]
    have hj := jsize_le_len hd
    have hrec := asize_le_len h2 t2
    simp [asize] at hrec ⊢
    omega
termination_by asize (JsonArr.cons hd t)
decreasing_by all_goals (subst_vars; simp [jsize, asize, osize]; try omega)

theorem osize_le_len (k : String) (v : Json) (t : JsonObj) :
    osize (JsonObj.cons k v t) ≤ (stringifyFields k v t).length := by
  cases t with
  | nil =>
    have hs : stringifyFields k v JsonObj.nil =
        '"' :: (escapeChars k.data ++ '"' :: ':' :: (stringifyChars v ++ ['\x7d'])) := by
      simp [stringifyFields]
    rw [hs]
    have := jsize_le_len v
    simp [osize]
    omega
  | cons k2 v2 t2 =>
    have hs : stringifyFields k v (JsonObj.cons k2 v2 t2) =
        '"' :: (escapeChars k.data ++ '"' :: ':' ::
          (stringifyChars v ++ ',' :: stringifyFields k2 v2 t2)) := by
      simp [stringifyFields]
    rw [hs]
    have hj := jsize_le_len v
    have hrec := osize_le_len k2 v2 t2
    simp [osize] at hrec ⊢
    omega
termination_by osize (JsonObj.cons k v t)
decreasing_by all_goals (subst_vars; simp [jsize, asize, osize]; try omega)

end

/-- `JSON.stringify` on a value, as a string. -/
def stringifyJson (v : Json) : String := String.mk (stringifyChars v)

/-- `JSON.parse` of a whole string; `none` models a thrown `SyntaxError`. -/
def decodeJson (s : String) : Option Json :=
  match parseJson (s.data.length + 1) s.data with
  | some (v, []) => some v
  | _ => none

/-- The analysis-blob serialization round-trips: parsing a stringified value
returns the value (for values whose numbers have finite decimal expansions,
which holds for everything the application stores). -/
theorem decodeJson_stringifyJson (v : Json) (hdec : jsonDecOk v = true) :
    decodeJson (stringifyJson v) = some v := by
  have hlen : jsize v ≤ (stringifyChars v).length + 1 := by
    have := jsize_le_len v
    omega
  have h := parseJson_stringify v ((stringifyChars v).length + 1) [] hlen hdec
    (by intro c hc; simp at hc)
  rw [List.append_nil] at h
  have hdata : (stringifyJson v).data = stringifyChars v := rfl
  rw [decodeJson, hdata, h]


/-! ## SHA-256 (FIPS 180-4)

The entity-id digests are produced by Node's
`crypto.createHash('sha256').update(s).digest('hex')`; the hash is embedded
here in full so the ids are executable. -/

/-- Truncate to a 32-bit word. -/
def w32 (n : Nat) : Nat := n % 4294967296

/-- 32-bit right rotation. -/
def rotr32 (k n : Nat) : Nat := w32 ((n >>> k) ||| (n <<< (32 - k)))

/-- Big sigma-0. -/
def bsig0 (x : Nat) : Nat := Nat.xor (Nat.xor (rotr32 2 x) (rotr32 13 x)) (rotr32 22 x)

/-- Big sigma-1. -/
def bsig1 (x : Nat) : Nat := Nat.xor (Nat.xor (rotr32 6 x) (rotr32 11 x)) (rotr32 25 x)

/-- Small sigma-0. -/
def ssig0 (x : Nat) : Nat := Nat.xor (Nat.xor (rotr32 7 x) (rotr32 18 x)) (x >>> 3)

/-- Small sigma-1. -/
def ssig1 (x : Nat) : Nat := Nat.xor (Nat.xor (rotr32 17 x) (rotr32 19 x)) (x >>> 10)

/-- Choice function. -/
def chF (x y z : Nat) : Nat :=
  Nat.xor (Nat.land x y) (Nat.land (Nat.xor x 4294967295) z)

/-- Majority function. -/
def majF (x y z : Nat) : Nat :=
  Nat.xor (Nat.xor (Nat.land x y) (Nat.land x z)) (Nat.land y z)

/-- The 64 SHA-256 round constants. -/
def K256 : List Nat :=
  [1116352408, 1899447441, 3049323471, 3921009573,
   961987163, 1508970993, 2453635748, 2870763221,
   3624381080, 310598401, 607225278, 1426881987,
   1925078388, 2162078206, 2614888103, 3248222580,
   3835390401, 4022224774, 264347078, 604807628,
   770255983, 1249150122, 1555081692, 1996064986,
   2554220882, 2821834349, 2952996808, 3210313671,
   3336571891, 3584528711, 113926993, 338241895,
   666307205, 773529912, 1294757372, 1396182291,
   1695183700, 1986661051, 2177026350, 2456956037,
   2730485921, 2820302411, 3259730800, 3345764771,
   3516065817, 3600352804, 4094571909, 275423344,
   430227734, 506948616, 659060556, 883997877,
   958139571, 1322822218, 1537002063, 1747873779,
   1955562222, 2024104815, 2227730452, 2361852424,
   2428436474, 2756734187, 3204031479, 3329325298]

/-- SHA-256 working state / digest: eight 32-bit words. -/
structure Hash8 where
  a : Nat
  b : Nat
  c : Nat
  d : Nat
  e : Nat
  f : Nat
  g : Nat
  h : Nat

/-- Initial hash value. -/
def initH : Hash8 :=
  ⟨1779033703, 3144134277, 1013904242, 2773480762,
   1359893119, 2600822924, 528734635, 1541459225⟩

/-- UTF-8 encoding of one character (what `hash.update(string)` hashes). -/
def utf8Char (c : Char) : List Nat :=
  let n := c.toNat
  if n < 128 then [n]
  else if n < 2048 then [192 + n / 64, 128 + n % 64]
  else if n < 65536 then [224 + n / 4096, 128 + (n / 64) % 64, 128 + n % 64]
  else [240 + n / 262144, 128 + (n / 4096) % 64, 128 + (n / 64) % 64, 128 + n % 64]

/-- UTF-8 bytes of a string. -/
def strBytes (s : String) : List Nat := (s.data.map utf8Char).flatten

/-- Big-endian 64-bit length field. -/
def be64 (n : Nat) : List Nat :=
  [n / 2 ^ 56 % 256, n / 2 ^ 48 % 256, n / 2 ^ 40 % 256, n / 2 ^ 32 % 256,
   n / 2 ^ 24 % 256, n / 2 ^ 16 % 256, n / 2 ^ 8 % 256, n % 256]

/-- SHA-256 message padding. -/
def sha256Pad (msg : List Nat) : List Nat :=
  msg ++ 128 :: (List.replicate ((120 - (msg.length + 1) % 64) % 64) 0 ++
    be64 (8 * msg.length))

/-- Split into 64-byte blocks (fuelled so the kernel can evaluate it; each
step consumes at least one byte, so the length is enough fuel). -/
def chunksGo : Nat → List Nat → List (List Nat)
  | 0, _ => []
  | _, [] => []
  | fuel + 1, l => l.take 64 :: chunksGo fuel (l.drop 64)

/-- Split into 64-byte blocks. -/
def chunks64 (l : List Nat) : List (List Nat) := chunksGo l.length l

/-- Big-endian 32-bit word from four bytes. -/
def be32of : List Nat → Nat
  | [a, b, c, d] => ((a * 256 + b) * 256 + c) * 256 + d
  | _ => 0

/-- The sixteen message words of a block. -/
def chunkWords (chunk : List Nat) : List Nat :=
  (List.range 16).map (fun i => be32of ((chunk.drop (4 * i)).take 4))

/-- Extend the message schedule by one word. -/
def scheduleStep (w : List Nat) : List Nat :=
  let n := w.length
  w ++ [w32 (ssig1 (w.getD (n - 2) 0) + w.getD (n - 7) 0 +
    ssig0 (w.getD (n - 15) 0) + w.getD (n - 16) 0)]

/-- The 64-word message schedule. -/
def schedule (w : List Nat) : List Nat :=
  (List.range 48).foldl (fun acc _ => scheduleStep acc) w

/-- One compression round. -/
def sha256Round (st : Hash8) (kw : Nat × Nat) : Hash8 :=
  let t1 := w32 (st.h + bsig1 st.e + chF st.e st.f st.g + kw.1 + kw.2)
  let t2 := w32 (bsig0 st.a + majF st.a st.b st.c)
  { a := w32 (t1 + t2), b := st.a, c := st.b, d := st.c,
    e := w32 (st.d + t1), f := st.e, g := st.f, h := st.g }

/-- Compress one 64-byte block into the state. -/
def compressChunk (st : Hash8) (chunk : List Nat) : Hash8 :=
  let ws := schedule (chunkWords chunk)
  let fin := (K256.zip ws).foldl sha256Round st
  { a := w32 (st.a + fin.a), b := w32 (st.b + fin.b), c := w32 (st.c + fin.c),
    d := w32 (st.d + fin.d), e := w32 (st.e + fin.e), f := w32 (st.f + fin.f),
    g := w32 (st.g + fin.g), h := w32 (st.h + fin.h) }

/-- SHA-256 of a byte list. -/
def sha256 (msg : List Nat) : Hash8 :=
  (chunks64 (sha256Pad msg)).foldl compressChunk initH

/-- Lower-case hex digit. -/
def hexDig : Nat → Char
  | 0 => '0' | 1 => '1' | 2 => '2' | 3 => '3' | 4 => '4' | 5 => '5'
  | 6 => '6' | 7 => '7' | 8 => '8' | 9 => '9' | 10 => 'a' | 11 => 'b'
  | 12 => 'c' | 13 => 'd' | 14 => 'e' | _ => 'f'

/-- Eight hex digits of a 32-bit word. -/
def hexWord (w : Nat) : List Char :=
  [hexDig (w / 2 ^ 28 % 16), hexDig (w / 2 ^ 24 % 16), hexDig (w / 2 ^ 20 % 16),
   hexDig (w / 2 ^ 16 % 16), hexDig (w / 2 ^ 12 % 16), hexDig (w / 2 ^ 8 % 16),
   hexDig (w / 2 ^ 4 % 16), hexDig (w % 16)]

/-- The 64 hex characters of the digest. -/
def sha256HexChars (msg : List Nat) : List Char :=
  let d := sha256 msg
  hexWord d.a ++ hexWord d.b ++ hexWord d.c ++ hexWord d.d ++
    hexWord d.e ++ hexWord d.f ++ hexWord d.g ++ hexWord d.h

theorem sha256HexChars_length (msg : List Nat) : (sha256HexChars msg).length = 64 := by
  simp [sha256HexChars, hexWord]

/-- `s.substring(0, n)` on a JavaScript string. -/
def jsSubstr (s : String) (n : Nat) : String := String.mk (s.data.take n)

/-- `crypto.createHash('sha256').update(s).digest('hex').substring(0, 16)`. -/
def hexDigest16 (s : String) : String :=
  String.mk ((sha256HexChars (strBytes s)).take 16)

theorem hexDigest16_length (s : String) : (hexDigest16 s).length = 16 := by
  have h : (hexDigest16 s).length = ((sha256HexChars (strBytes s)).take 16).length := rfl
  rw [h, List.length_take, sha256HexChars_length]
  rfl


/-! ## JavaScript object model

Objects built by literal and spread syntax are association lists with
last-write-wins update; `getField` returning `none` models `undefined`,
while `some Json.null` models an explicit `null`. -/

/-- A JavaScript object value. -/
abbrev JsObj := List (String × Json)

/-- Assign one property (later writes win). -/
def setField (o : JsObj) (kv : String × Json) : JsObj :=
  o.filter (fun e => ¬ e.1 = kv.1) ++ [kv]

/-- Spread `p` over `o`: every own property of `p` overrides `o`. -/
def spreadObj (o p : JsObj) : JsObj := p.foldl setField o

/-- Property access; `none` is `undefined`. -/
def getField (o : JsObj) (k : String) : Option Json :=
  (o.find? (fun e => e.1 = k)).map (fun e => e.2)

/-- String property access. -/
def getStr (o : JsObj) (k : String) : Option String :=
  match getField o k with
  | some (Json.str s) => some s
  | _ => none

/-- Numeric property access. -/
def getNum (o : JsObj) (k : String) : Option ℚ :=
  match getField o k with
  | some (Json.num q) => some q
  | _ => none

/-- Enumerable fields of a parsed JSON value as spread by `{...obj}`
(the application only ever spreads parsed objects). -/
def jsonObjToList : JsonObj → JsObj
  | .nil => []
  | .cons k v t => (k, v) :: jsonObjToList t

/-- Object fields of a JSON value (`[]` for non-objects). -/
def objFields : Json → JsObj
  | .obj fs => jsonObjToList fs
  | _ => []

theorem find?_filter_of_imp {α : Type} {p q : α → Bool} (l : List α)
    (h : ∀ x, p x = true → q x = true) :
    (l.filter q).find? p = l.find? p := by
  induction l with
  | nil => rfl
  | cons e t ih =>
    cases hq : q e with
    | true =>
      cases hp : p e with
      | true => simp [List.filter_cons, hq, List.find?_cons, hp]
      | false => simp [List.filter_cons, hq, List.find?_cons, hp, ih]
    | false =>
      have hp : p e = false := by
        cases hpe : p e with
        | false => rfl
        | true => rw [h e hpe] at hq; exact hq
      simp [List.filter_cons, hq, List.find?_cons, hp, ih]

theorem getField_setField_ne (o : JsObj) (kv : String × Json) (k : String)
    (h : ¬ kv.1 = k) :
    getField (setField o kv) k = getField o k := by
  rw [getField, setField, List.find?_append]
  have h1 : (o.filter (fun e => ¬ e.1 = kv.1)).find? (fun e => decide (e.1 = k)) =
      o.find? (fun e => decide (e.1 = k)) := by
    apply find?_filter_of_imp
    intro x hx
    simp only [decide_eq_true_eq] at hx
    simp only [decide_eq_true_eq]
    intro hk
    rw [hk] at hx
    exact h hx
  have h2 : ([kv].find? (fun e => decide (e.1 = k))) = none := by
    apply List.find?_eq_none.mpr
    intro x hx
    simp only [List.mem_singleton] at hx
    subst hx
    simp only [decide_eq_true_eq]
    exact h
  rw [h1, h2]
  simp [getField]

theorem getField_setField_eq (o : JsObj) (kv : String × Json) :
    getField (setField o kv) kv.1 = some kv.2 := by
  rw [getField, setField, List.find?_append]
  have h1 : (o.filter (fun e => ¬ e.1 = kv.1)).find? (fun e => decide (e.1 = kv.1)) =
      none := by
    apply List.find?_eq_none.mpr
    intro x hx
    simp only [List.mem_filter, decide_eq_true_eq] at hx
    simp only [decide_eq_true_eq]
    exact hx.2
  have h2 : ([kv].find? (fun e => decide (e.1 = kv.1))) = some kv := by
    simp [List.find?_cons]
  rw [h1, h2]
  rfl

theorem getField_spread_notmem (o p : JsObj) (k : String)
    (h : ∀ kv ∈ p, ¬ kv.1 = k) :
    getField (spreadObj o p) k = getField o k := by
  induction p generalizing o with
  | nil => rfl
  | cons kv t ih =>
    rw [spreadObj, List.foldl_cons, ← spreadObj,
      ih (setField o kv) (fun x hx => h x (List.mem_cons_of_mem _ hx)),
      getField_setField_ne o kv k (h kv (List.mem_cons_self kv t))]

theorem getField_spread_mem (o p : JsObj) (k : String) (v : Json)
    (hmem : (k, v) ∈ p) (hnodup : (p.map Prod.fst).Nodup) :
    getField (spreadObj o p) k = some v := by
  induction p generalizing o with
  | nil => simp at hmem
  | cons kv t ih =>
    rw [spreadObj, List.foldl_cons, ← spreadObj]
    rcases List.mem_cons.mp hmem with heq | hmem2
    · subst heq
      have hnot : ∀ x ∈ t, ¬ x.1 = k := by
        intro x hx hk
        simp only [List.map_cons, List.nodup_cons] at hnodup
        exact hnodup.1 (hk ▸ List.mem_map_of_mem Prod.fst hx)
      rw [getField_spread_notmem _ t k hnot]
      exact getField_setField_eq o (k, v)
    · simp only [List.map_cons, List.nodup_cons] at hnodup
      exact ih (setField o kv) hmem2 hnodup.2

/-- Spreading the empty object is the identity. -/
theorem spreadObj_nil (o : JsObj) : spreadObj o [] = o := rfl

/-- Spreading one property at a time. -/
theorem spreadObj_cons (o : JsObj) (kv : String × Json) (p : JsObj) :
    spreadObj o (kv :: p) = spreadObj (setField o kv) p := rfl

/-- Reading back the property just assigned (pair-literal form). -/
theorem getField_set_eq (o : JsObj) (k : String) (v : Json) :
    getField (setField o (k, v)) k = some v :=
  getField_setField_eq o (k, v)

/-- Reading a different property than the one assigned (pair-literal
form). -/
theorem getField_set_ne (o : JsObj) (k k' : String) (v : Json)
    (h : ¬ k = k') :
    getField (setField o (k, v)) k' = getField o k' :=
  getField_setField_ne o (k, v) k' h

/-- Property access on an empty literal object. -/
theorem getField_nil (k : String) : getField [] k = none := rfl

/-- Property access hitting the head of a literal object. -/
theorem getField_cons_eq (k : String) (v : Json) (t : JsObj) :
    getField ((k, v) :: t) k = some v := by
  simp [getField, List.find?_cons_of_pos]

/-- Property access skipping the head of a literal object. -/
theorem getField_cons_ne (k k' : String) (v : Json) (t : JsObj)
    (h : ¬ k = k') :
    getField ((k, v) :: t) k' = getField t k' := by
  simp only [getField]
  rw [List.find?_cons_of_neg]
  simp [h]

/-! ## Persistence layer (`db.js`)

SQLite statements are modelled on in-memory tables; `INSERT OR REPLACE`
keyed by primary key and `INSERT OR IGNORE` are modelled exactly.  Every
public write helper is wrapped in the same initialisation guard and
try/catch as the source; a possible statement failure is an explicit
`fault` input. -/

/-- JavaScript `a || d` for strings (empty string is falsy). -/
def jsOr (x : Option String) (d : String) : String :=
  match x with
  | some s => if s = "" then d else s
  | none => d

/-- JavaScript `a || {}` for an analysis payload (null and undefined are
falsy). -/
def jsOrEmptyObj (x : Option Json) : Json :=
  match x with
  | some Json.null => Json.obj JsonObj.nil
  | some j => j
  | none => Json.obj JsonObj.nil

/-- Two right-padded decimal digits. -/
def pad2 (n : Nat) : List Char :=
  if n < 10 then '0' :: natDigits n else natDigits n

/-- Proleptic-Gregorian civil date from days since 1970-01-01
(Howard Hinnant's algorithm, as `Date#toISOString` computes it). -/
def civilFromDays (z : Nat) : Nat × Nat × Nat :=
  let z2 := z + 719468
  let era := z2 / 146097
  let doe := z2 % 146097
  let yoe := (doe - doe / 1460 + doe / 36524 - doe / 146096) / 365
  let y := yoe + era * 400
  let doy := doe - (365 * yoe + yoe / 4 - yoe / 100)
  let mp := (5 * doy + 2) / 153
  let da := doy - (153 * mp + 2) / 5 + 1
  let mo := if mp < 10 then mp + 3 else mp - 9
  (if mo ≤ 2 then y + 1 else y, mo, da)

/-- `new Date(ms).toISOString().replace('T', ' ').slice(0, 19)`. -/
def msToIso (ms : Nat) : String :=
  let days := ms / 86400000
  let secs := ms % 86400000 / 1000
  let ymd := civilFromDays days
  String.mk (natDigits ymd.1 ++ '-' :: pad2 ymd.2.1 ++ '-' :: pad2 ymd.2.2 ++
    ' ' :: pad2 (secs / 3600) ++ ':' :: pad2 (secs % 3600 / 60) ++
    ':' :: pad2 (secs % 60))

/-- A row of the `entities` table. -/
structure EntityRow where
  entity_id : String
  entity_type : String
  source_url : String
  title : String
  extracted_text : String
  risk_level : String
  analysis_json : String
  detected_at : String

/-- A row of the `trust_history` table. -/
structure TrustRow where
  entity_id : String
  trust_score : ℚ
  delta : ℚ
  timestamp : String

/-- A row of the `audit_log` table. -/
structure AuditRow where
  event_id : String
  event_type : String
  entity_id : String
  session_id : String
  timestamp : String
  metadata : String

/-- A row of the `legal_sessions` table. -/
structure LegalRow where
  entity_id : String
  user_query : String
  ai_response : String
  session_type : String
  timestamp : String

/-- The four durable relations. -/
structure DbData where
  entities : List EntityRow := []
  trust_history : List TrustRow := []
  audit_log : List AuditRow := []
  legal_sessions : List LegalRow := []

/-- A freshly created database. -/
def emptyDb : DbData := {}

/-- `INSERT OR REPLACE INTO entities` keyed by the `entity_id` primary key:
the conflicting row is replaced, never duplicated. -/
def insertEntityStmt (t : List EntityRow) (r : EntityRow) : List EntityRow :=
  t.filter (fun x => ¬ x.entity_id = r.entity_id) ++ [r]

/-- `INSERT OR IGNORE INTO audit_log` keyed by the `event_id` primary key:
a duplicate insert is ignored and the stored row is left untouched. -/
def insertAuditStmt (t : List AuditRow) (r : AuditRow) : List AuditRow :=
  if t.any (fun x => x.event_id = r.event_id) then t else t ++ [r]

/-- The argument object accepted by `db.insertEntity` (absent keys are
`none`). -/
structure EntityParams where
  entity_id : Option String := none
  entity_type : Option String := none
  source_url : Option String := none
  url : Option String := none
  image_url : Option String := none
  title : Option String := none
  content_title : Option String := none
  text : Option String := none
  risk_level : Option String := none
  misinformation_risk : Option String := none
  analysis : Option Json := none
  detected_at : Option Nat := none

/-- The row `db.insertEntity` builds from its argument (defaulting and
serialization exactly as in the source). -/
def normalizeEntityRow (now : Nat) (p : EntityParams) : EntityRow :=
  { entity_id := jsOr p.entity_id "unknown",
    entity_type := (jsOr p.entity_type "UNKNOWN").toUpper,
    source_url := jsOr p.source_url (jsOr p.url (jsOr p.image_url "")),
    title := jsOr p.title (jsOr p.content_title ""),
    extracted_text := jsOr p.text "",
    risk_level := (jsOr p.risk_level (jsOr p.misinformation_risk "LOW")).toUpper,
    analysis_json := stringifyJson (jsOrEmptyObj p.analysis),
    detected_at :=
      match p.detected_at with
      | some ms => if ms = 0 then msToIso now else msToIso ms
      | none => msToIso now }

/-- Success path of `db.insertEntity`. -/
def entIns (now : Nat) (d : DbData) (p : EntityParams) : DbData :=
  { d with entities := insertEntityStmt d.entities (normalizeEntityRow now p) }

/-- Success path of `db.insertTrustHistory`. -/
def trustIns (now : Nat) (d : DbData) (entityId : String) (score delta : ℚ) : DbData :=
  let row : TrustRow :=
    { entity_id := entityId, trust_score := score, delta := delta,
      timestamp := msToIso now }
  { d with trust_history := d.trust_history ++ [row] }

/-- Success path of `db.insertAuditLog` (the event id is the generated
`_uuid()`, passed in explicitly). -/
def auditIns (now : Nat) (d : DbData) (uuid eventType entityId sessionId : String)
    (metadata : Json) : DbData :=
  let row : AuditRow :=
    { event_id := uuid, event_type := eventType, entity_id := entityId,
      session_id := sessionId, timestamp := msToIso now,
      metadata := stringifyJson metadata }
  { d with audit_log := insertAuditStmt d.audit_log row }

/-- Success path of `db.insertLegalSession`. -/
def legalIns (now : Nat) (d : DbData) (entityId userQuery aiResponse sessionType : String) :
    DbData :=
  let row : LegalRow :=
    { entity_id := jsOr (some entityId) "", user_query := jsOr (some userQuery) "",
      ai_response := jsOr (some aiResponse) "", session_type := sessionType,
      timestamp := msToIso now }
  { d with legal_sessions := d.legal_sessions ++ [row] }

/-- `better-sqlite3` statement execution that may throw; the possible
failure is injected as `fault`. -/
def runStmt (fault : Bool) (d : DbData) : Except String DbData :=
  if fault then Except.error "SQLITE_IOERR: disk I/O error" else Except.ok d

/-- `db.insertEntity`: skips when uninitialised, catches statement errors. -/
def dbInsertEntity (s : Option DbData) (fault : Bool) (now : Nat) (p : EntityParams) :
    Except String (Option DbData) :=
  match s with
  | none => Except.ok none
  | some d =>
    match runStmt fault (entIns now d p) with
    | Except.ok d2 => Except.ok (some d2)
    | Except.error _ => Except.ok (some d)

/-- `db.insertTrustHistory`. -/
def dbInsertTrustHistory (s : Option DbData) (fault : Bool) (now : Nat)
    (entityId : String) (score delta : ℚ) : Except String (Option DbData) :=
  match s with
  | none => Except.ok none
  | some d =>
    match runStmt fault (trustIns now d entityId score delta) with
    | Except.ok d2 => Except.ok (some d2)
    | Except.error _ => Except.ok (some d)

/-- `db.insertAuditLog`. -/
def dbInsertAuditLog (s : Option DbData) (fault : Bool) (now : Nat)
    (uuid eventType entityId sessionId : String) (metadata : Json) :
    Except String (Option DbData) :=
  match s with
  | none => Except.ok none
  | some d =>
    match runStmt fault (auditIns now d uuid eventType entityId sessionId metadata) with
    | Except.ok d2 => Except.ok (some d2)
    | Except.error _ => Except.ok (some d)

/-- `db.insertLegalSession`. -/
def dbInsertLegalSession (s : Option DbData) (fault : Bool) (now : Nat)
    (entityId userQuery aiResponse sessionType : String) :
    Except String (Option DbData) :=
  match s with
  | none => Except.ok none
  | some d =>
    match runStmt fault (legalIns now d entityId userQuery aiResponse sessionType) with
    | Except.ok d2 => Except.ok (some d2)
    | Except.error _ => Except.ok (some d)

/-- The write operations the module exposes (its reads never mutate, and it
exposes no UPDATE or DELETE). -/
inductive DbOp where
  | insertEntityOp (p : EntityParams)
  | insertTrustOp (entityId : String) (score delta : ℚ)
  | insertAuditOp (uuid eventType entityId sessionId : String) (metadata : Json)
  | insertLegalOp (entityId userQuery aiResponse sessionType : String)

/-- Apply one write operation (success path). -/
def applyOp (now : Nat) (d : DbData) : DbOp → DbData
  | .insertEntityOp p => entIns now d p
  | .insertTrustOp entityId score delta => trustIns now d entityId score delta
  | .insertAuditOp uuid eventType entityId sessionId metadata =>
      auditIns now d uuid eventType entityId sessionId metadata
  | .insertLegalOp entityId userQuery aiResponse sessionType =>
      legalIns now d entityId userQuery aiResponse sessionType

/-- Durably store a batch of entities into a fresh database (the success
path of repeated `db.insertEntity` calls). -/
def storeAll (now : Nat) (ps : List EntityParams) : DbData :=
  ps.foldl (fun d p => entIns now d p) emptyDb

/-- `ORDER BY detected_at DESC` (SQLite compares the ISO strings
lexicographically). -/
def sortByDetectedDesc (l : List EntityRow) : List EntityRow :=
  l.mergeSort (fun a b => decide (b.detected_at ≤ a.detected_at))

/-- `db.queryEntities` with no filters, as the startup restore calls it:
`limit` 2000 is clamped to `max(1, min(2000, 2000)) = 2000`; each returned
row carries its parsed analysis blob (parse failure degrades to `{}`). -/
def queryEntitiesRecs (d : DbData) : List (EntityRow × Json) :=
  ((sortByDetectedDesc d.entities).take 2000).map
    (fun r => (r, (decodeJson r.analysis_json).getD (Json.obj JsonObj.nil)))

/-- `db.getEntity`: single row by id, with the parsed analysis blob. -/
def getEntityRow (d : DbData) (id : String) : Option (EntityRow × Json) :=
  if id = "" then none
  else (d.entities.find? (fun r => r.entity_id = id)).map
    (fun r => (r, (decodeJson r.analysis_json).getD (Json.obj JsonObj.nil)))

/-- The in-memory `ENTITY_CACHE` map. -/
abbrev EntityCache := List (String × JsObj)

/-- `ENTITY_CACHE.get`. -/
def cacheLookup (c : EntityCache) (id : String) : Option JsObj :=
  (c.find? (fun e => e.1 = id)).map (fun e => e.2)

/-- `ENTITY_CACHE.set`. -/
def cacheSet (c : EntityCache) (id : String) (o : JsObj) : EntityCache :=
  c.filter (fun e => ¬ e.1 = id) ++ [(id, o)]

/-- The object both the startup restore loop and the `entity:details`
database fallback build from a stored row (they are identical in the
source). -/
def restoredObj (r : EntityRow) (a : Json) : JsObj :=
  spreadObj
    ([("entity_id", Json.str r.entity_id),
      ("entity_type", Json.str r.entity_type),
      ("source_url", Json.str r.source_url)] ++
     (if r.entity_type.toUpper = "IMAGE"
      then [("image_url", Json.str r.source_url)] else []) ++
     [("title", Json.str r.title),
      ("content_title", Json.str r.title),
      ("url", Json.str r.source_url),
      ("text", Json.str r.extracted_text),
      ("risk_level", Json.str r.risk_level),
      ("detected_at", Json.str r.detected_at),
      ("_from_db", Json.bool true)])
    (objFields a)

/-- One iteration of the startup cache-restore loop (insert the persisted
row unless its id is falsy or already cached). -/
def restoreStep (c : EntityCache) (ra : EntityRow × Json) : EntityCache :=
  if ra.1.entity_id = "" then c
  else if (cacheLookup c ra.1.entity_id).isSome then c
  else cacheSet c ra.1.entity_id (restoredObj ra.1 ra.2)

/-- The startup cache-restore loop of `app.whenReady`. -/
def rebuildCache (d : DbData) : EntityCache :=
  (queryEntitiesRecs d).foldl restoreStep []

/-- The `entity:details` handler: cache first, database fallback (restoring
the row into the cache on a hit). -/
def entityDetails (c : EntityCache) (d : DbData) (id : String) :
    Option JsObj × EntityCache :=
  if id = "" then (none, c)
  else
    match cacheLookup c id with
    | some e => (some e, c)
    | none =>
      match getEntityRow d id with
      | some ra =>
        let restored := restoredObj ra.1 ra.2
        (some restored, cacheSet c id restored)
      | none => (none, c)


/-! ## Entity identity -/

/-- Character-list prefix test. -/
def charsPrefix : List Char → List Char → Bool
  | [], _ => true
  | _ :: _, [] => false
  | p :: ps, c :: cs => p == c && charsPrefix ps cs

/-- Character-list suffix test. -/
def charsSuffix (p l : List Char) : Bool :=
  charsPrefix p.reverse l.reverse

/-- Character-list infix-occurrence test (first argument is the pattern). -/
def charsContains : List Char → List Char → Bool
  | p, [] => charsPrefix p []
  | p, c :: cs => charsPrefix p (c :: cs) || charsContains p cs

/-- JavaScript `toLowerCase()` on the ASCII range. -/
def lcChars (l : List Char) : List Char := l.map Char.toLower

/-- `isValidHttpUrl`: models `new URL(url)` succeeding with an `http:` or
`https:` protocol (a scheme followed by a non-empty remainder). -/
def isValidHttpUrl (s : String) : Bool :=
  (charsPrefix "http://".data s.data && decide (7 < s.data.length)) ||
  (charsPrefix "https://".data s.data && decide (8 < s.data.length))

/-- Entity id of an image capture:
`sha256("image-" + imageUrl)` in hex, truncated to 16 characters. -/
def imageEntityId (url : String) : String :=
  hexDigest16 ("image-" ++ url)

/-- Entity id of a text capture:
`sha256("text-" + url + "-" + title)` in hex, truncated to 16 characters. -/
def textEntityId (url title : String) : String :=
  hexDigest16 ("text-" ++ url ++ "-" ++ title)

/-- Digest input of the `analyze:manual-text` handler:
`text-manual-` + `Date.now()` + `-` + the first 30 characters of the text. -/
def manualTextDigestInput (nowMs : Nat) (text : String) : String :=
  "text-manual-" ++ decRepr nowMs ++ "-" ++ jsSubstr text 30

/-- Entity id of a manually pasted text submission. -/
def manualTextEntityId (nowMs : Nat) (text : String) : String :=
  hexDigest16 (manualTextDigestInput nowMs text)

/-- The kind of a capture. -/
inductive CaptureKind where
  | image
  | text
deriving DecidableEq

/-- A capture observed on the content surface (fields beyond the
identifying ones are carried to show the id does not depend on them). -/
structure Capture where
  kind : CaptureKind
  url : String
  title : String
  text : String
  word_count : Nat
  observed_at : Nat

/-- The entity id the pipeline derives for a capture. -/
def captureEntityId (c : Capture) : String :=
  match c.kind with
  | .image => imageEntityId c.url
  | .text => textEntityId c.url c.title

/-! ## Analysis gateway -/

/-- The primary text analyzer's JSON body (inbound contract of
`/api/text-monitor`). -/
structure TextAnalysis where
  ai_generated_probability : ℚ
  misinformation_risk : String
  credibility_score : ℚ
  explanation : List String
  trust_score : ℚ
  trust_score_delta : ℚ
  session_id : String

/-- The image analyzer's JSON body (inbound contract of
`/api/image-monitor`). -/
structure ImageAnalysis where
  fake_probability : ℚ
  risk_level : String
  forensic_explanation : Option (List String)
  trust_score : ℚ
  trust_score_delta : ℚ
  session_id : String

/-- The text payload forwarded by the capture layer. -/
structure TextPayload where
  title : String
  url : String
  text : String
  word_count : Nat
  timestamp : Nat

/-- Outcome of a `fetch` call: a thrown error (network failure or timeout),
or a response with its `ok` flag, status and parsed JSON body. -/
inductive FetchOutcome (α : Type) where
  | threw (msg : String)
  | response (ok : Bool) (status : Nat) (body : α)

/-- The parsed Gemini JSON as the code inspects it: `none` in `summary`
models a missing or non-string field, `none` in a numeric field models
`parseFloat` returning `NaN`, `none` in a list field models a non-array. -/
structure ParsedGemini where
  summary : Option String
  topic : Option String
  key_claims : Option (List String)
  ai_generated_probability : Option ℚ
  misinformation_risk : Option String
  credibility_score : Option ℚ
  forensic_explanation : Option (List String)

/-- A normalized Gemini enrichment result. -/
structure GeminiResult where
  ai_generated_probability : ℚ
  misinformation_risk : String
  credibility_score : ℚ
  forensic_explanation : List String
  ai_summary : String
  topic : String
  key_claims : List String

/-- Everything that can happen on the wire during a Gemini call. -/
inductive GeminiOutcome where
  | noApiKey
  | fetchThrew
  | response (ok : Bool) (body : Option ParsedGemini)

/-- JavaScript `parseFloat(x) || d` (both `NaN` and `0` are falsy). -/
def jsOrNum (x : Option ℚ) (d : ℚ) : ℚ :=
  match x with
  | some v => if v = 0 then d else v
  | none => d

/-- The `try` body of `callGeminiAnalysis`: early `null` returns are
`Except.ok none`; thrown errors (fetch failure, JSON parse failure, shape
mismatch) are `Except.error`. -/
def geminiTry : GeminiOutcome → Except String (Option GeminiResult)
  | .noApiKey => Except.ok none
  | .fetchThrew => Except.error "fetch failed"
  | .response false _ => Except.ok none
  | .response true none => Except.error "Unexpected token in JSON"
  | .response true (some p) =>
    match p.summary with
    | none => Except.error "Unexpected response shape"
    | some summ =>
      let risk :=
        match p.misinformation_risk with
        | some r => if r = "LOW" ∨ r = "MEDIUM" ∨ r = "HIGH" then r else "LOW"
        | none => "LOW"
      let aiProb := max 0 (min 1 (jsOrNum p.ai_generated_probability 0))
      let credScore := max 0 (min 1 (jsOrNum p.credibility_score (1 / 2)))
      Except.ok (some
        { ai_generated_probability := aiProb,
          misinformation_risk := risk,
          credibility_score := credScore,
          forensic_explanation := (p.forensic_explanation.getD []).take 6,
          ai_summary := summ,
          topic := jsOr p.topic "General",
          key_claims := (p.key_claims.getD []).take 5 })

/-- `callGeminiAnalysis`: the surrounding `catch` turns every thrown error
into `null`; the caller can never observe an exception. -/
def callGeminiAnalysis (o : GeminiOutcome) : Option GeminiResult :=
  match geminiTry o with
  | Except.ok r => r
  | Except.error _ => none

/-- With no API key configured the enrichment returns `null` immediately. -/
theorem callGemini_noApiKey :
    callGeminiAnalysis GeminiOutcome.noApiKey = none := rfl

/-! ## Trust score engine (spec-modelled)

Modelled from the spec: the backend trust engine
(`backend/trust/trust_engine.py`) is not under `src/`; per design §4.4 and
the backend README, each detection deducts `probability × 100` from the
per-session score (initially 100), clamped to [0, 100]. -/

/-- Modelled from the spec: one trust-engine transition; returns the new
score and the applied delta. -/
def trustUpdate (old p : ℚ) : ℚ × ℚ :=
  let delta := -(p * 100)
  (min 100 (max 0 (old + delta)), delta)

/-- Modelled from the spec: the primary text analyzer's response, with its
trust fields computed by the backend trust engine from the probability the
backend's own heuristic produced (the enrichment never reaches the
backend). -/
def primaryTextResponse (old p : ℚ) (risk : String) (cred : ℚ)
    (expl : List String) (sid : String) : TextAnalysis :=
  { ai_generated_probability := p, misinformation_risk := risk,
    credibility_score := cred, explanation := expl,
    trust_score := (trustUpdate old p).1,
    trust_score_delta := (trustUpdate old p).2, session_id := sid }

/-- Modelled from the spec: the image analyzer's response with trust fields
from the backend trust engine. -/
def primaryImageResponse (old p : ℚ) (risk : String)
    (expl : Option (List String)) (sid : String) : ImageAnalysis :=
  { fake_probability := p, risk_level := risk, forensic_explanation := expl,
    trust_score := (trustUpdate old p).1,
    trust_score_delta := (trustUpdate old p).2, session_id := sid }

/-! ## The backend bridge (`postTextToBackend` / `postImageUrlToBackend`) -/

/-- The observable effects of one bridge invocation. -/
structure GatewayEffects where
  analyzerRequested : Bool := false
  cacheWrite : Option (String × JsObj) := none
  entityWrite : Option EntityParams := none
  trustWrite : Option (String × ℚ × ℚ) := none
  auditWrite : Option (String × String) := none
  ipcSent : Option JsObj := none

/-- No observable effects. -/
def noEffects : GatewayEffects := {}

/-- A JSON array of strings. -/
def strArr (l : List String) : Json :=
  Json.arr (l.foldr (fun s acc => JsonArr.cons (Json.str s) acc) JsonArr.nil)

/-- JavaScript `x ?? d` on a property access. -/
def jsNullish (x : Option Json) (d : Json) : Json :=
  match x with
  | some Json.null => d
  | some j => j
  | none => d

/-- `{...textPayload}`. -/
def payloadObj (tp : TextPayload) : JsObj :=
  [("title", Json.str tp.title), ("url", Json.str tp.url),
   ("text", Json.str tp.text), ("word_count", Json.num tp.word_count),
   ("timestamp", Json.num tp.timestamp)]

/-- `{...analysis}` for the primary text response. -/
def analysisObj (a : TextAnalysis) : JsObj :=
  [("ai_generated_probability", Json.num a.ai_generated_probability),
   ("misinformation_risk", Json.str a.misinformation_risk),
   ("credibility_score", Json.num a.credibility_score),
   ("explanation", strArr a.explanation),
   ("trust_score", Json.num a.trust_score),
   ("trust_score_delta", Json.num a.trust_score_delta),
   ("session_id", Json.str a.session_id)]

/-- The conditional spread
`...(gemini ? {overrides} : {ai_summary: null, topic: null, key_claims: []})`. -/
def geminiPatch : Option GeminiResult → JsObj
  | some g =>
    [("ai_generated_probability", Json.num g.ai_generated_probability),
     ("misinformation_risk", Json.str g.misinformation_risk),
     ("credibility_score", Json.num g.credibility_score),
     ("explanation", strArr g.forensic_explanation),
     ("ai_summary", Json.str g.ai_summary),
     ("topic", Json.str g.topic),
     ("key_claims", strArr g.key_claims)]
  | none =>
    [("ai_summary", Json.null), ("topic", Json.null),
     ("key_claims", Json.arr JsonArr.nil)]

/-- The merged entity object built in `postTextToBackend`:
`{entity_id, entity_type, ...textPayload, ...analysis, ...(gemini ? … : …),
detected_at}`. -/
def mergedTextEntity (entityId : String) (tp : TextPayload) (a : TextAnalysis)
    (gemini : Option GeminiResult) (now : Nat) : JsObj :=
  setField
    (spreadObj
      (spreadObj
        (spreadObj
          [("entity_id", Json.str entityId), ("entity_type", Json.str "TEXT")]
          (payloadObj tp))
        (analysisObj a))
      (geminiPatch gemini))
    ("detected_at", Json.num now)

/-- The argument `postTextToBackend` passes to `db.insertEntity`. -/
def textInsertParams (entityId : String) (e : JsObj) : EntityParams :=
  { entity_id := some entityId, entity_type := some "TEXT",
    source_url := getStr e "url",
    title := getStr e "content_title",
    text := some ((getStr e "text").getD ""),
    risk_level := getStr e "misinformation_risk",
    analysis := some (Json.obj
      (JsonObj.cons "ai_generated_probability"
        ((getField e "ai_generated_probability").getD Json.null)
        (JsonObj.cons "credibility_score"
          ((getField e "credibility_score").getD Json.null)
          (JsonObj.cons "trust_score"
            ((getField e "trust_score").getD Json.null) JsonObj.nil)))) }

/-- The `text-monitor:analysis` IPC payload (note: the trust fields are
taken from `analysis`, the primary response, not from the merged entity). -/
def textSentPayload (entityId : String) (tp : TextPayload) (a : TextAnalysis)
    (e : JsObj) (now : Nat) : JsObj :=
  [("entity_id", Json.str entityId),
   ("entity_type", Json.str "TEXT"),
   ("content_title", Json.str tp.title),
   ("url", Json.str tp.url),
   ("word_count", Json.num tp.word_count),
   ("ai_generated_probability", (getField e "ai_generated_probability").getD Json.null),
   ("misinformation_risk", (getField e "misinformation_risk").getD Json.null),
   ("credibility_score", (getField e "credibility_score").getD Json.null),
   ("explanation", jsNullish (getField e "explanation") (Json.arr JsonArr.nil)),
   ("trust_score", Json.num a.trust_score),
   ("trust_score_delta", Json.num a.trust_score_delta),
   ("session_id", Json.str a.session_id),
   ("ai_summary", (getField e "ai_summary").getD Json.null),
   ("topic", (getField e "topic").getD Json.null),
   ("key_claims", (getField e "key_claims").getD Json.null),
   ("analyzed_at", Json.num now)]

/-- `postTextToBackend`: payload and URL validation, the primary fetch, the
best-effort Gemini enrichment, merge, cache, persistence and IPC delivery;
the `catch` branch records an ANALYSIS_FAILED audit event. -/
def postTextToBackend (payload : Option TextPayload)
    (primary : FetchOutcome TextAnalysis) (gOut : GeminiOutcome)
    (destroyed : Bool) (now : Nat) : GatewayEffects :=
  match payload with
  | none => noEffects
  | some tp =>
    if ¬ isValidHttpUrl tp.url then noEffects
    else
      match primary with
      | .threw _ =>
        { noEffects with
            analyzerRequested := true
            auditWrite := some ("ANALYSIS_FAILED", "") }
      | .response ok _ a =>
        if ¬ ok then { noEffects with analyzerRequested := true }
        else if destroyed then { noEffects with analyzerRequested := true }
        else
          let gemini := callGeminiAnalysis gOut
          let entityId := textEntityId tp.url tp.title
          let e := mergedTextEntity entityId tp a gemini now
          { analyzerRequested := true,
            cacheWrite := some (entityId, e),
            entityWrite := some (textInsertParams entityId e),
            trustWrite := some (entityId, (getNum e "trust_score").getD 0,
              (getNum e "trust_score_delta").getD 0),
            auditWrite := some ("ENTITY_DETECTED", entityId),
            ipcSent := some (textSentPayload entityId tp a e now) }

/-- The entity object `postImageUrlToBackend` caches. -/
def imageCachedEntity (entityId url : String) (a : ImageAnalysis) (now : Nat) : JsObj :=
  [("entity_id", Json.str entityId),
   ("entity_type", Json.str "IMAGE"),
   ("image_url", Json.str url),
   ("fake_probability", Json.num a.fake_probability),
   ("risk_level", Json.str a.risk_level),
   ("forensic_explanation", strArr (a.forensic_explanation.getD [])),
   ("trust_score", Json.num a.trust_score),
   ("trust_score_delta", Json.num a.trust_score_delta),
   ("session_id", Json.str a.session_id),
   ("detected_at", Json.num now)]

/-- The argument `postImageUrlToBackend` passes to `db.insertEntity`. -/
def imageInsertParams (entityId url : String) (a : ImageAnalysis) : EntityParams :=
  { entity_id := some entityId, entity_type := some "IMAGE",
    source_url := some url, risk_level := some a.risk_level,
    analysis := some (Json.obj
      (JsonObj.cons "fake_probability" (Json.num a.fake_probability)
        (JsonObj.cons "trust_score" (Json.num a.trust_score)
          (JsonObj.cons "forensic_explanation"
            (strArr (a.forensic_explanation.getD [])) JsonObj.nil)))) }

/-- The `image-monitor:analysis` IPC payload. -/
def imageSentPayload (entityId url : String) (a : ImageAnalysis) (now : Nat) : JsObj :=
  [("entity_id", Json.str entityId),
   ("image_url", Json.str url),
   ("fake_probability", Json.num a.fake_probability),
   ("risk_level", Json.str a.risk_level),
   ("forensic_explanation", strArr (a.forensic_explanation.getD [])),
   ("trust_score", Json.num a.trust_score),
   ("trust_score_delta", Json.num a.trust_score_delta),
   ("session_id", Json.str a.session_id),
   ("analyzed_at", Json.num now)]

/-- `postImageUrlToBackend`: URL validation, a single analyzer call with no
fallback chain; a non-2xx status returns silently, a thrown error records
an ANALYSIS_FAILED audit event. -/
def postImageUrlToBackend (url : String) (primary : FetchOutcome ImageAnalysis)
    (destroyed : Bool) (now : Nat) : GatewayEffects :=
  if ¬ isValidHttpUrl url then noEffects
  else
    match primary with
    | .threw _ =>
      { noEffects with
          analyzerRequested := true
          auditWrite := some ("ANALYSIS_FAILED", "") }
    | .response ok _ a =>
      if ¬ ok then { noEffects with analyzerRequested := true }
      else if destroyed then { noEffects with analyzerRequested := true }
      else
        let entityId := imageEntityId url
        { analyzerRequested := true,
          cacheWrite := some (entityId, imageCachedEntity entityId url a now),
          entityWrite := some (imageInsertParams entityId url a),
          trustWrite := some (entityId, a.trust_score, a.trust_score_delta),
          auditWrite := some ("ENTITY_DETECTED", entityId),
          ipcSent := some (imageSentPayload entityId url a now) }

/-! ## Image capture deduplication (`_seenImageUrls`) -/

/-- State of the session-level image interceptor. -/
structure MonState where
  seen : List String := []

/-- Events reaching the interceptor and the IPC fallback handlers. -/
inductive MonEvent where
  | completedRequest (url : String) (statusCode : Nat) (mime : String)
      (isImageResource : Bool) (windowAlive : Bool)
  | rendererImageUrl (url : String)
  | navigated (url : String)

/-- Image MIME types accepted by the interceptor. -/
def imageMimes : List String :=
  ["image/jpeg", "image/jpg", "image/png", "image/webp", "image/gif",
   "image/avif", "image/bmp"]

/-- Image file extensions accepted by the interceptor. -/
def imageExts : List String :=
  ["jpg", "jpeg", "png", "webp", "gif", "avif", "bmp"]

/-- The URL-extension half of the image test: `endsWith(".ext")` or
`includes(".ext?")` on the lower-cased URL. -/
def hasImageExt (u : String) : Bool :=
  imageExts.any (fun e =>
    charsSuffix ("." ++ e).data (lcChars u.data) ||
    charsContains ("." ++ e ++ "?").data (lcChars u.data))

/-- The `isImage` test of the interceptor (MIME type, URL extension, or
resource type). -/
def looksLikeImage (url mime : String) (isImageResource : Bool) : Bool :=
  imageMimes.any (fun m => m.data == lcChars mime.data) ||
    hasImageExt url || isImageResource

/-- One step of the interceptor state machine; the emitted URL is a
`postImageUrlToBackend` submission. -/
def monStep (s : MonState) : MonEvent → MonState × Option String
  | .completedRequest url st mime isImg alive =>
    if ¬ alive then (s, none)
    else if st < 200 ∨ 300 ≤ st then (s, none)
    else if ¬ looksLikeImage url mime isImg then (s, none)
    else if url ∈ s.seen then (s, none)
    else ({ seen := url :: s.seen }, some url)
  | .rendererImageUrl url =>
    if url ∈ s.seen then (s, none)
    else ({ seen := url :: s.seen }, some url)
  | .navigated _ => ({ seen := [] }, none)

/-- Run a sequence of events, collecting the submissions. -/
def monRun (s : MonState) : List MonEvent → MonState × List String
  | [] => (s, [])
  | e :: es =>
    let r := monStep s e
    let r2 := monRun r.1 es
    (r2.1, (match r.2 with | some u => [u] | none => []) ++ r2.2)


/-! ## Auxiliary lemmas: cache restore, interceptor runs, decimal ids -/

theorem cacheLookup_set_eq (c : EntityCache) (id : String) (o : JsObj) :
    cacheLookup (cacheSet c id o) id = some o := by
  rw [cacheLookup, cacheSet, List.find?_append]
  have h1 : (c.filter (fun e => ¬ e.1 = id)).find? (fun e => decide (e.1 = id)) =
      none := by
    apply List.find?_eq_none.mpr
    intro x hx
    simp only [List.mem_filter, decide_eq_true_eq] at hx
    simp only [decide_eq_true_eq]
    exact hx.2
  rw [h1]
  simp

theorem cacheLookup_set_ne (c : EntityCache) (id id2 : String) (o : JsObj)
    (h : ¬ id = id2) :
    cacheLookup (cacheSet c id o) id2 = cacheLookup c id2 := by
  rw [cacheLookup, cacheSet, List.find?_append]
  have h1 : (c.filter (fun e => ¬ e.1 = id)).find? (fun e => decide (e.1 = id2)) =
      c.find? (fun e => decide (e.1 = id2)) := by
    apply find?_filter_of_imp
    intro x hx
    simp only [decide_eq_true_eq] at hx
    simp only [decide_eq_true_eq]
    intro hk
    rw [hk] at hx
    exact h hx
  have h2 : ([(id, o)].find? (fun e => decide (e.1 = id2))) = none := by
    simp [List.find?_cons, h]
  rw [h1, h2]
  simp [cacheLookup]

theorem restoreFold_preserve (recs : List (EntityRow × Json)) (c : EntityCache)
    (id : String) (h : (cacheLookup c id).isSome = true) :
    cacheLookup (recs.foldl restoreStep c) id = cacheLookup c id := by
  induction recs generalizing c with
  | nil => rfl
  | cons ra t ih =>
    rw [List.foldl_cons]
    have hstep : cacheLookup (restoreStep c ra) id = cacheLookup c id := by
      rw [restoreStep]
      split
      · rfl
      · split
        · rfl
        · rename_i h1 h2
          have hne : ¬ ra.1.entity_id = id := by
            intro he
            rw [he] at h2
            exact h2 h
          exact cacheLookup_set_ne c ra.1.entity_id id _ hne
    rw [ih (restoreStep c ra) (by rw [hstep]; exact h), hstep]

theorem restoreFold_lookup (recs : List (EntityRow × Json)) (c : EntityCache)
    (ra : EntityRow × Json) (hmem : ra ∈ recs)
    (hnd : (recs.map (fun x => x.1.entity_id)).Nodup)
    (hid : ¬ ra.1.entity_id = "")
    (hnone : cacheLookup c ra.1.entity_id = none) :
    cacheLookup (recs.foldl restoreStep c) ra.1.entity_id =
      some (restoredObj ra.1 ra.2) := by
  induction recs generalizing c with
  | nil => cases hmem
  | cons hd t ih =>
    rw [List.foldl_cons]
    rcases List.mem_cons.mp hmem with heq | hmem2
    · subst heq
      have hstep : restoreStep c ra =
          cacheSet c ra.1.entity_id (restoredObj ra.1 ra.2) := by
        rw [restoreStep, if_neg hid, if_neg]
        rw [hnone]
        simp
      rw [hstep,
        restoreFold_preserve t _ _ (by rw [cacheLookup_set_eq]; rfl),
        cacheLookup_set_eq]
    · simp only [List.map_cons, List.nodup_cons] at hnd
      have hne : ¬ hd.1.entity_id = ra.1.entity_id := by
        intro he
        exact hnd.1 (he ▸ List.mem_map_of_mem (fun x => x.1.entity_id) hmem2)
      have hlook : cacheLookup (restoreStep c hd) ra.1.entity_id = none := by
        rw [restoreStep]
        split
        · exact hnone
        · split
          · exact hnone
          · rw [cacheLookup_set_ne _ _ _ _ hne]
            exact hnone
      exact ih _ hmem2 hnd.2 hlook

theorem insertEntityStmt_fresh (t : List EntityRow) (r : EntityRow)
    (h : ∀ x ∈ t, ¬ x.entity_id = r.entity_id) :
    insertEntityStmt t r = t ++ [r] := by
  rw [insertEntityStmt]
  congr 1
  apply List.filter_eq_self.mpr
  intro x hx
  simp only [decide_eq_true_eq]
  exact h x hx

theorem foldl_insert_rows (rs : List EntityRow) (t : List EntityRow)
    (hnd : (rs.map EntityRow.entity_id).Nodup)
    (hdisj : ∀ x ∈ t, ∀ r ∈ rs, ¬ x.entity_id = r.entity_id) :
    rs.foldl insertEntityStmt t = t ++ rs := by
  induction rs generalizing t with
  | nil => simp
  | cons r rs2 ih =>
    rw [List.foldl_cons,
      insertEntityStmt_fresh t r (fun x hx => hdisj x hx r (List.mem_cons_self r rs2))]
    simp only [List.map_cons, List.nodup_cons] at hnd
    rw [ih (t ++ [r]) hnd.2]
    · simp
    · intro x hx r2 hr2
      rcases List.mem_append.mp hx with hx2 | hx2
      · exact hdisj x hx2 r2 (List.mem_cons_of_mem r hr2)
      · rw [List.mem_singleton.mp hx2]
        intro he
        exact hnd.1 (he ▸ List.mem_map_of_mem EntityRow.entity_id hr2)

theorem storeAll_foldl (now : Nat) (ps : List EntityParams) :
    ∀ (d : DbData), (ps.foldl (fun d p => entIns now d p) d).entities
      = (ps.map (normalizeEntityRow now)).foldl insertEntityStmt d.entities := by
  induction ps with
  | nil => intro d; rfl
  | cons p t ih =>
    intro d
    rw [List.foldl_cons, List.map_cons, List.foldl_cons, ih]
    rfl

theorem storeAll_entities (now : Nat) (ps : List EntityParams)
    (hnd : ((ps.map (normalizeEntityRow now)).map EntityRow.entity_id).Nodup) :
    (storeAll now ps).entities = ps.map (normalizeEntityRow now) := by
  rw [storeAll, storeAll_foldl now ps emptyDb,
    foldl_insert_rows _ _ hnd (by intro x hx; cases hx)]
  rfl

theorem mem_queryEntitiesRecs (d : DbData) (r : EntityRow)
    (hmem : r ∈ d.entities) (hlen : d.entities.length ≤ 2000) :
    (r, (decodeJson r.analysis_json).getD (Json.obj JsonObj.nil)) ∈
      queryEntitiesRecs d := by
  rw [queryEntitiesRecs]
  apply List.mem_map_of_mem
  rw [List.take_of_length_le]
  · rw [sortByDetectedDesc]
    exact (List.mergeSort_perm d.entities _).mem_iff.mpr hmem
  · rw [sortByDetectedDesc, List.length_mergeSort]
    exact hlen

theorem queryEntitiesRecs_ids_nodup (d : DbData)
    (hnd : (d.entities.map EntityRow.entity_id).Nodup)
    (hlen : d.entities.length ≤ 2000) :
    ((queryEntitiesRecs d).map (fun x => x.1.entity_id)).Nodup := by
  rw [queryEntitiesRecs, List.map_map]
  have hcomp : ((fun x : EntityRow × Json => x.1.entity_id) ∘
      (fun r => (r, (decodeJson r.analysis_json).getD (Json.obj JsonObj.nil)))) =
      EntityRow.entity_id := rfl
  rw [hcomp, List.take_of_length_le]
  · rw [sortByDetectedDesc]
    exact (((List.mergeSort_perm d.entities _).map EntityRow.entity_id).nodup_iff).mpr hnd
  · rw [sortByDetectedDesc, List.length_mergeSort]
    exact hlen

theorem monRun_append (s : MonState) (l1 l2 : List MonEvent) :
    monRun s (l1 ++ l2) =
      ((monRun (monRun s l1).1 l2).1,
       (monRun s l1).2 ++ (monRun (monRun s l1).1 l2).2) := by
  induction l1 generalizing s with
  | nil => simp [monRun]
  | cons e t ih => simp [monRun, ih, List.append_assoc]

theorem monStep_seen (s : MonState) (url : String) (st : Nat) (mime : String)
    (isImg alive : Bool) (h : url ∈ s.seen) :
    monStep s (MonEvent.completedRequest url st mime isImg alive) = (s, none) := by
  rw [monStep]
  split_ifs <;> rfl

theorem monRun_stall (s : MonState) (e : MonEvent)
    (h : monStep s e = (s, none)) (k : Nat) :
    monRun s (List.replicate k e) = (s, []) := by
  induction k with
  | zero => rfl
  | succ n ih => simp [List.replicate_succ, monRun, h, ih]

theorem monStep_fresh (s : MonState) (url : String) (st : Nat) (mime : String)
    (isImg : Bool) (hst : ¬ (st < 200 ∨ 300 ≤ st))
    (himg : looksLikeImage url mime isImg = true) (hs : url ∉ s.seen) :
    monStep s (MonEvent.completedRequest url st mime isImg true) =
      ({ seen := url :: s.seen }, some url) := by
  rw [monStep]
  simp [hst, himg, hs]

theorem monRun_replicate_fresh (s : MonState) (url : String) (st : Nat)
    (mime : String) (isImg : Bool) (n : Nat)
    (hst : ¬ (st < 200 ∨ 300 ≤ st))
    (himg : looksLikeImage url mime isImg = true) (hs : url ∉ s.seen) :
    monRun s (List.replicate (n + 1)
        (MonEvent.completedRequest url st mime isImg true)) =
      ({ seen := url :: s.seen }, [url]) := by
  rw [List.replicate_succ, monRun, monStep_fresh s url st mime isImg hst himg hs]
  rw [monRun_stall _ _ (monStep_seen _ url st mime isImg true
    (List.mem_cons_self url s.seen)) n]
  rfl

/-! C10 infrastructure -/

theorem noDash_cancel : ∀ (d1 d2 r1 r2 : List Char),
    (∀ c ∈ d1, ¬ c = '-') → (∀ c ∈ d2, ¬ c = '-') →
    d1 ++ '-' :: r1 = d2 ++ '-' :: r2 → d1 = d2 ∧ r1 = r2 := by
  intro d1
  induction d1 with
  | nil =>
    intro d2 r1 r2 _ h2 heq
    cases d2 with
    | nil => simpa using heq
    | cons c t =>
      simp only [List.nil_append, List.cons_append, List.cons.injEq] at heq
      exact absurd heq.1.symm (h2 c (List.mem_cons_self c t))
  | cons c t ih =>
    intro d2 r1 r2 h1 h2 heq
    cases d2 with
    | nil =>
      simp only [List.nil_append, List.cons_append, List.cons.injEq] at heq
      exact absurd heq.1 (h1 c (List.mem_cons_self c t))
    | cons c2 t2 =>
      simp only [List.cons_append, List.cons.injEq] at heq
      obtain ⟨hc, hrest⟩ := heq
      have := ih t2 r1 r2 (fun x hx => h1 x (List.mem_cons_of_mem _ hx))
        (fun x hx => h2 x (List.mem_cons_of_mem _ hx)) hrest
      exact ⟨by rw [hc, this.1], this.2⟩

theorem digitsVal_decRepr (n : Nat) : digitsVal (decRepr n).data = n := by
  by_cases h : n = 0
  · subst h; decide
  · rw [decRepr, if_neg h]
    exact digitsVal_natDigits n

theorem decRepr_noDash (n : Nat) : ∀ c ∈ (decRepr n).data, ¬ c = '-' := by
  intro c hc hcon
  subst hcon
  by_cases h : n = 0
  · subst h
    simp [decRepr] at hc
  · rw [decRepr, if_neg h] at hc
    have := natDigits_isDig n '-' hc
    exact absurd this (by decide)

theorem manualDigestInput_inj (t1 t2 : Nat) (text : String)
    (h : manualTextDigestInput t1 text = manualTextDigestInput t2 text) :
    t1 = t2 := by
  have hd := congrArg String.data h
  simp only [manualTextDigestInput, String.data_append, List.append_assoc] at hd
  have hd2 := List.append_cancel_left hd
  simp only [List.singleton_append] at hd2
  have := noDash_cancel _ _ _ _ (decRepr_noDash t1) (decRepr_noDash t2) hd2
  have hv := congrArg digitsVal this.1
  rwa [digitsVal_decRepr, digitsVal_decRepr] at hv

theorem twoRows (t : List EntityRow) (r1 r2 : EntityRow)
    (h : ¬ r1.entity_id = r2.entity_id) :
    r1 ∈ insertEntityStmt (insertEntityStmt t r1) r2 ∧
    r2 ∈ insertEntityStmt (insertEntityStmt t r1) r2 := by
  constructor
  · rw [insertEntityStmt]
    apply List.mem_append_left
    apply List.mem_filter.mpr
    refine ⟨?_, by simpa using h⟩
    rw [insertEntityStmt]
    exact List.mem_append_right _ (List.mem_singleton.mpr rfl)
  · rw [insertEntityStmt]
    exact List.mem_append_right _ (List.mem_singleton.mpr rfl)

/-! ## Claims -/

/-- C1: Entity identity is idempotent: two captures with identical kind and
source locator (and, for text, identical title) derive the same
16-character digest as entity id — the id is a pure function of those
fields only — and persisting a second capture with the same entity id
replaces the stored row (insert-or-replace keyed by `entity_id`) instead of
creating a duplicate. -/
theorem c1_entity_identity_idempotent :
    (∀ c1 c2 : Capture, c1.kind = c2.kind → c1.url = c2.url →
      (c1.kind = CaptureKind.text → c1.title = c2.title) →
      captureEntityId c1 = captureEntityId c2) ∧
    (∀ c : Capture, (captureEntityId c).length = 16) ∧
    (∀ (t : List EntityRow) (r1 r2 : EntityRow), r1.entity_id = r2.entity_id →
      insertEntityStmt (insertEntityStmt t r1) r2 = insertEntityStmt t r2) := by
  refine ⟨?_, ?_, ?_⟩
  · intro c1 c2 hk hu ht
    cases hk1 : c1.kind with
    | image =>
      have hk2 : c2.kind = CaptureKind.image := by rw [← hk, hk1]
      simp [captureEntityId, hk1, hk2, hu]
    | text =>
      have hk2 : c2.kind = CaptureKind.text := by rw [← hk, hk1]
      simp [captureEntityId, hk1, hk2, hu, ht hk1]
  · intro c
    cases hk : c.kind <;> simp [captureEntityId, hk, imageEntityId, textEntityId,
      hexDigest16_length]
  · intro t r1 r2 hid
    rw [insertEntityStmt, insertEntityStmt, insertEntityStmt, List.filter_append,
      List.filter_filter]
    have h1 : (List.filter (fun x => decide (¬ x.entity_id = r2.entity_id)) [r1]) =
        ([] : List EntityRow) := by
      simp [List.filter_cons, hid]
    have h2 : ∀ x : EntityRow,
        (decide (¬ x.entity_id = r2.entity_id) && decide (¬ x.entity_id = r1.entity_id)) =
        decide (¬ x.entity_id = r2.entity_id) := by
      intro x
      rw [hid]
      exact Bool.and_self _
    rw [h1]
    simp only [List.append_nil]
    congr 1
    apply List.filter_congr
    intro x _
    exact h2 x

/-- C2: Reconciliation merge precedence in `postTextToBackend`: with an
enrichment result present, the merged entity's probability, risk,
credibility and forensic-findings fields equal the enrichment's values,
the raw text and word count from the capture payload are preserved, and
the enrichment-only fields are added; with enrichment absent, the primary
fields pass through unchanged and `ai_summary` / `topic` / `key_claims`
are explicitly `null` / `null` / `[]` (present on the object, never left
undefined). -/
theorem c2_merge_precedence (tp : TextPayload) (a : TextAnalysis)
    (g : GeminiResult) (id : String) (now : Nat) :
    (getField (mergedTextEntity id tp a (some g) now) "ai_generated_probability" =
        some (Json.num g.ai_generated_probability) ∧
      getField (mergedTextEntity id tp a (some g) now) "misinformation_risk" =
        some (Json.str g.misinformation_risk) ∧
      getField (mergedTextEntity id tp a (some g) now) "credibility_score" =
        some (Json.num g.credibility_score) ∧
      getField (mergedTextEntity id tp a (some g) now) "explanation" =
        some (strArr g.forensic_explanation) ∧
      getField (mergedTextEntity id tp a (some g) now) "text" =
        some (Json.str tp.text) ∧
      getField (mergedTextEntity id tp a (some g) now) "word_count" =
        some (Json.num tp.word_count) ∧
      getField (mergedTextEntity id tp a (some g) now) "ai_summary" =
        some (Json.str g.ai_summary) ∧
      getField (mergedTextEntity id tp a (some g) now) "topic" =
        some (Json.str g.topic) ∧
      getField (mergedTextEntity id tp a (some g) now) "key_claims" =
        some (strArr g.key_claims)) ∧
    (getField (mergedTextEntity id tp a none now) "ai_generated_probability" =
        some (Json.num a.ai_generated_probability) ∧
      getField (mergedTextEntity id tp a none now) "misinformation_risk" =
        some (Json.str a.misinformation_risk) ∧
      getField (mergedTextEntity id tp a none now) "credibility_score" =
        some (Json.num a.credibility_score) ∧
      getField (mergedTextEntity id tp a none now) "explanation" =
        some (strArr a.explanation) ∧
      getField (mergedTextEntity id tp a none now) "text" =
        some (Json.str tp.text) ∧
      getField (mergedTextEntity id tp a none now) "word_count" =
        some (Json.num tp.word_count) ∧
      getField (mergedTextEntity id tp a none now) "ai_summary" = some Json.null ∧
      getField (mergedTextEntity id tp a none now) "topic" = some Json.null ∧
      getField (mergedTextEntity id tp a none now) "key_claims" =
        some (Json.arr JsonArr.nil)) := by
  simp only [mergedTextEntity, payloadObj, analysisObj, geminiPatch,
    spreadObj_cons, spreadObj_nil]
  refine ⟨?_, ?_⟩ <;>
    refine ⟨?_, ?_, ?_, ?_, ?_, ?_, ?_, ?_, ?_⟩ <;>
    simp [getField_set_eq, getField_set_ne]

/-- C4: every failure of the enrichment analyzer — thrown fetch error or
timeout, non-2xx status, unparseable or empty body, wrong shape — yields a
`null` enrichment result (no exception escapes `callGeminiAnalysis`), and
the text pipeline still builds, caches, persists and delivers the entity
from the primary result alone, with the enrichment-only fields explicitly
nulled. -/
theorem c4_enrichment_failure_null (tp : TextPayload) (a : TextAnalysis)
    (gOut : GeminiOutcome) (now : Nat)
    (hv : isValidHttpUrl tp.url = true)
    (hg : callGeminiAnalysis gOut = none) :
    (callGeminiAnalysis GeminiOutcome.fetchThrew = none) ∧
    (∀ b, callGeminiAnalysis (GeminiOutcome.response false b) = none) ∧
    (callGeminiAnalysis (GeminiOutcome.response true none) = none) ∧
    (∀ p : ParsedGemini, p.summary = none →
      callGeminiAnalysis (GeminiOutcome.response true (some p)) = none) ∧
    (∀ o msg, geminiTry o = Except.error msg → callGeminiAnalysis o = none) ∧
    (postTextToBackend (some tp) (FetchOutcome.response true 200 a) gOut false now =
      postTextToBackend (some tp) (FetchOutcome.response true 200 a)
        GeminiOutcome.noApiKey false now) ∧
    (postTextToBackend (some tp) (FetchOutcome.response true 200 a) gOut false now).cacheWrite =
      some (textEntityId tp.url tp.title,
        mergedTextEntity (textEntityId tp.url tp.title) tp a none now) ∧
    (postTextToBackend (some tp) (FetchOutcome.response true 200 a) gOut false now).entityWrite =
      some (textInsertParams (textEntityId tp.url tp.title)
        (mergedTextEntity (textEntityId tp.url tp.title) tp a none now)) ∧
    (∃ s, (postTextToBackend (some tp) (FetchOutcome.response true 200 a) gOut
        false now).ipcSent = some s ∧
      getField s "ai_generated_probability" = some (Json.num a.ai_generated_probability) ∧
      getField s "ai_summary" = some Json.null ∧
      getField s "topic" = some Json.null) := by
  refine ⟨rfl, fun b => rfl, rfl, ?_, ?_, ?_, ?_, ?_, ?_⟩
  · intro p hp
    simp [callGeminiAnalysis, geminiTry, hp]
  · intro o msg hmsg
    simp [callGeminiAnalysis, hmsg]
  · simp [postTextToBackend, hv, hg, callGemini_noApiKey]
  · simp [postTextToBackend, hv, hg]
  · simp [postTextToBackend, hv, hg]
  · refine ⟨textSentPayload (textEntityId tp.url tp.title) tp a
      (mergedTextEntity (textEntityId tp.url tp.title) tp a none now) now,
      by simp [postTextToBackend, hv, hg], ?_, ?_, ?_⟩ <;>
    · simp only [textSentPayload, mergedTextEntity, payloadObj, analysisObj,
        geminiPatch, spreadObj_cons, spreadObj_nil]
      simp [getField_cons_eq, getField_cons_ne, getField_set_eq,
        getField_set_ne, jsNullish]

/-- C5 counterexample: an image-analyzer response with a non-2xx HTTP
status drops the capture with NO audit event at all — contradicting the
claim that an ANALYSIS_FAILED audit event is recorded for non-2xx
statuses (the source's non-ok branch just returns; only the catch branch
writes the audit event). -/
theorem c5_counterexample :
    (postImageUrlToBackend "https://example.com/a.jpg"
        (FetchOutcome.response false 500
          ({ fake_probability := 1 / 2, risk_level := "HIGH",
             forensic_explanation := some ["x"], trust_score := 50,
             trust_score_delta := -50, session_id := "s" } : ImageAnalysis))
        false 7).cacheWrite = none ∧
    (postImageUrlToBackend "https://example.com/a.jpg"
        (FetchOutcome.response false 500
          ({ fake_probability := 1 / 2, risk_level := "HIGH",
             forensic_explanation := some ["x"], trust_score := 50,
             trust_score_delta := -50, session_id := "s" } : ImageAnalysis))
        false 7).entityWrite = none ∧
    (postImageUrlToBackend "https://example.com/a.jpg"
        (FetchOutcome.response false 500
          ({ fake_probability := 1 / 2, risk_level := "HIGH",
             forensic_explanation := some ["x"], trust_score := 50,
             trust_score_delta := -50, session_id := "s" } : ImageAnalysis))
        false 7).trustWrite = none ∧
    (postImageUrlToBackend "https://example.com/a.jpg"
        (FetchOutcome.response false 500
          ({ fake_probability := 1 / 2, risk_level := "HIGH",
             forensic_explanation := some ["x"], trust_score := 50,
             trust_score_delta := -50, session_id := "s" } : ImageAnalysis))
        false 7).auditWrite = none :=
  ⟨rfl, rfl, rfl, rfl⟩

/-- C5 (amended): an image capture whose analyzer call throws is dropped
with an ANALYSIS_FAILED audit event and no entity; one whose analyzer call
returns a non-2xx status is dropped silently — no entity and no audit
event. -/
theorem c5_image_failure_drop (url : String) (hv : isValidHttpUrl url = true) :
    (∀ msg destroyed now,
      postImageUrlToBackend url (FetchOutcome.threw msg) destroyed now =
        { noEffects with
            analyzerRequested := true
            auditWrite := some ("ANALYSIS_FAILED", "") }) ∧
    (∀ st a destroyed now,
      postImageUrlToBackend url (FetchOutcome.response false st a) destroyed now =
        { noEffects with analyzerRequested := true }) := by
  constructor
  · intro msg destroyed now
    simp [postImageUrlToBackend, hv]
  · intro st a destroyed now
    simp [postImageUrlToBackend, hv]

/-- C7: every persistence write helper is fault-isolated: for every
database state (including an uninitialised one) and every injected
statement failure, the helper returns normally (`Except.ok`), never
propagating past the persistence boundary. -/
theorem c7_write_fault_isolation :
    ∀ (s : Option DbData) (fault : Bool) (now : Nat),
      (∀ p, ∃ s2, dbInsertEntity s fault now p = Except.ok s2) ∧
      (∀ entityId score delta, ∃ s2,
        dbInsertTrustHistory s fault now entityId score delta = Except.ok s2) ∧
      (∀ uuid eventType entityId sessionId metadata, ∃ s2,
        dbInsertAuditLog s fault now uuid eventType entityId sessionId metadata =
          Except.ok s2) ∧
      (∀ entityId userQuery aiResponse sessionType, ∃ s2,
        dbInsertLegalSession s fault now entityId userQuery aiResponse sessionType =
          Except.ok s2) := by
  intro s fault now
  refine ⟨?_, ?_, ?_, ?_⟩ <;> intros <;>
    cases s <;> cases fault <;> exact ⟨_, rfl⟩

/-- C8: audit-log immutability: no write operation of the persistence
module ever removes or changes a stored audit row, and inserting an audit
event whose `event_id` already exists leaves the table — and so the first
row's content — unchanged (insert-if-absent, not insert-or-replace). -/
theorem c8_audit_immutability :
    (∀ (now : Nat) (d : DbData) (op : DbOp) (r : AuditRow),
      r ∈ d.audit_log → r ∈ (applyOp now d op).audit_log) ∧
    (∀ (t : List AuditRow) (r r2 : AuditRow),
      r ∈ t → r2.event_id = r.event_id → insertAuditStmt t r2 = t) := by
  constructor
  · intro now d op r hr
    cases op with
    | insertEntityOp p => exact hr
    | insertTrustOp entityId score delta => exact hr
    | insertLegalOp entityId userQuery aiResponse sessionType => exact hr
    | insertAuditOp uuid eventType entityId sessionId metadata =>
      simp only [applyOp, auditIns, insertAuditStmt]
      split
      · exact hr
      · exact List.mem_append_left _ hr
  · intro t r r2 hr hid
    rw [insertAuditStmt, if_pos]
    rw [List.any_eq_true]
    exact ⟨r, hr, by simp [hid]⟩

def c3tp : TextPayload :=
  { title := "t", url := "https://x.com/a", text := "body",
    word_count := 1, timestamp := 0 }

def c3a : TextAnalysis := primaryTextResponse 100 (1 / 5) "LOW" (1 / 2) [] "s"

def c3pg : ParsedGemini :=
  { summary := some "sum", topic := some "top", key_claims := some [],
    ai_generated_probability := some (9 / 10),
    misinformation_risk := some "HIGH", credibility_score := some (1 / 2),
    forensic_explanation := some [] }

def c3g : GeminiResult :=
  { ai_generated_probability := 9 / 10, misinformation_risk := "HIGH",
    credibility_score := 1 / 2, forensic_explanation := [],
    ai_summary := "sum", topic := "top", key_claims := [] }

def c3eff : GatewayEffects :=
  postTextToBackend (some c3tp) (FetchOutcome.response true 200 c3a)
    (GeminiOutcome.response true (some c3pg)) false 7

/-- C3 counterexample: a text capture whose primary analysis carries
probability 1/5 (trust 80, delta -20, computed by the backend before the
merge) and whose enrichment overrides the probability to 9/10: the merged
entity holds the post-merge probability 9/10, yet the trust history row the
gateway writes carries 80 and -20 from the primary probability, and
-20 is not -(9/10 times 100) — the stamped trust fields do NOT reflect the
post-merge probability. -/
theorem c3_counterexample :
    (∃ e, c3eff.cacheWrite = some (textEntityId c3tp.url c3tp.title, e) ∧
      getNum e "ai_generated_probability" = some (9 / 10)) ∧
    c3eff.trustWrite = some (textEntityId c3tp.url c3tp.title, 80, -20) ∧
    ¬ ((-20 : ℚ) = -(9 / 10 * 100)) := by
  have hv : isValidHttpUrl c3tp.url = true := by decide
  have hg : callGeminiAnalysis (GeminiOutcome.response true (some c3pg)) =
      some c3g := by
    rw [callGeminiAnalysis, geminiTry]
    simp only [c3pg, jsOrNum, jsOr]
    norm_num [c3g]
    decide
  have hts : getField (mergedTextEntity (textEntityId c3tp.url c3tp.title)
      c3tp c3a (some c3g) 7) "trust_score" = some (Json.num c3a.trust_score) := by
    simp only [mergedTextEntity, payloadObj, analysisObj, geminiPatch,
      spreadObj_cons, spreadObj_nil]
    simp [getField_set_eq, getField_set_ne]
  have htd : getField (mergedTextEntity (textEntityId c3tp.url c3tp.title)
      c3tp c3a (some c3g) 7) "trust_score_delta" =
      some (Json.num c3a.trust_score_delta) := by
    simp only [mergedTextEntity, payloadObj, analysisObj, geminiPatch,
      spreadObj_cons, spreadObj_nil]
    simp [getField_set_eq, getField_set_ne]
  have hai : getField (mergedTextEntity (textEntityId c3tp.url c3tp.title)
      c3tp c3a (some c3g) 7) "ai_generated_probability" =
      some (Json.num c3g.ai_generated_probability) := by
    simp only [mergedTextEntity, payloadObj, analysisObj, geminiPatch,
      spreadObj_cons, spreadObj_nil]
    simp [getField_set_eq, getField_set_ne]
  have hsc : c3a.trust_score = 80 := by
    rw [c3a, primaryTextResponse]
    norm_num [trustUpdate]
  have hdl : c3a.trust_score_delta = -20 := by
    rw [c3a, primaryTextResponse]
    norm_num [trustUpdate]
  refine ⟨⟨mergedTextEntity (textEntityId c3tp.url c3tp.title) c3tp c3a (some c3g) 7,
    ?_, ?_⟩, ?_, by norm_num⟩
  · simp [c3eff, postTextToBackend, hv, hg]
  · rw [getNum, hai]
    rw [c3g]
  · simp only [c3eff, postTextToBackend, hv, hg]
    simp [getNum, hts, htd, hsc, hdl]

/-- C3 (amended): the trust engine deducts delta = -(probability x 100),
clamping the new score to [0, 100] (spec-modelled rule), but the
probability used is the one of the PRIMARY analyzer response: the trust
fields the gateway writes to trust history come from the merged entity,
whose trust fields the enrichment patch never overrides, so for a text
capture they equal the primary response values regardless of the
enrichment outcome; for an image capture they come from the analyzer
response directly. -/
theorem c3_trust_from_primary (old p : ℚ) (risk : String) (cred : ℚ)
    (expl : List String) (sid : String) (tp : TextPayload) (gOut : GeminiOutcome)
    (url : String) (iexpl : Option (List String)) (now : Nat)
    (hvt : isValidHttpUrl tp.url = true) (hvi : isValidHttpUrl url = true) :
    trustUpdate old p = (min 100 (max 0 (old + -(p * 100))), -(p * 100)) ∧
    (postTextToBackend (some tp)
        (FetchOutcome.response true 200 (primaryTextResponse old p risk cred expl sid))
        gOut false now).trustWrite =
      some (textEntityId tp.url tp.title,
        (trustUpdate old p).1, (trustUpdate old p).2) ∧
    (postImageUrlToBackend url
        (FetchOutcome.response true 200 (primaryImageResponse old p risk iexpl sid))
        false now).trustWrite =
      some (imageEntityId url, (trustUpdate old p).1, (trustUpdate old p).2) := by
  refine ⟨rfl, ?_, ?_⟩
  · cases hg : callGeminiAnalysis gOut with
    | none =>
      have hts : getField (mergedTextEntity (textEntityId tp.url tp.title)
          tp (primaryTextResponse old p risk cred expl sid) none now)
          "trust_score" = some (Json.num (trustUpdate old p).1) := by
        simp only [mergedTextEntity, payloadObj, analysisObj, geminiPatch,
          spreadObj_cons, spreadObj_nil]
        simp [getField_set_eq, getField_set_ne, primaryTextResponse]
      have htd : getField (mergedTextEntity (textEntityId tp.url tp.title)
          tp (primaryTextResponse old p risk cred expl sid) none now)
          "trust_score_delta" = some (Json.num (trustUpdate old p).2) := by
        simp only [mergedTextEntity, payloadObj, analysisObj, geminiPatch,
          spreadObj_cons, spreadObj_nil]
        simp [getField_set_eq, getField_set_ne, primaryTextResponse]
      simp only [postTextToBackend, hvt, hg]
      simp [getNum, hts, htd]
    | some g =>
      have hts : getField (mergedTextEntity (textEntityId tp.url tp.title)
          tp (primaryTextResponse old p risk cred expl sid) (some g) now)
          "trust_score" = some (Json.num (trustUpdate old p).1) := by
        simp only [mergedTextEntity, payloadObj, analysisObj, geminiPatch,
          spreadObj_cons, spreadObj_nil]
        simp [getField_set_eq, getField_set_ne, primaryTextResponse]
      have htd : getField (mergedTextEntity (textEntityId tp.url tp.title)
          tp (primaryTextResponse old p risk cred expl sid) (some g) now)
          "trust_score_delta" = some (Json.num (trustUpdate old p).2) := by
        simp only [mergedTextEntity, payloadObj, analysisObj, geminiPatch,
          spreadObj_cons, spreadObj_nil]
        simp [getField_set_eq, getField_set_ne, primaryTextResponse]
      simp only [postTextToBackend, hvt, hg]
      simp [getNum, hts, htd]
  · simp [postImageUrlToBackend, hvi, primaryImageResponse]

/-- The keys the startup restore object always carries besides the parsed
analysis-blob fields. -/
def restoredFixedKeys : List String :=
  ["entity_id", "entity_type", "source_url", "image_url", "title",
   "content_title", "url", "text", "risk_level", "detected_at", "_from_db"]

/-- C6: cache rebuild round-trip: durably store a batch of entities (with
distinct, non-empty normalized ids, at most the 2000-row query limit, an
analysis blob whose numbers survive fixed-point decimal serialization and
whose keys do not shadow the restore object fixed keys); after the cache is
rebuilt from the store, lookup-by-id succeeds for every stored entity and
returns the stored row field-for-field, the analysis JSON blob parsing back
to exactly the stored value. -/
theorem c6_cache_rebuild_roundtrip (now : Nat) (ps : List EntityParams)
    (p : EntityParams) (hmem : p ∈ ps)
    (hnd : ((ps.map (normalizeEntityRow now)).map EntityRow.entity_id).Nodup)
    (hlen : ps.length ≤ 2000)
    (hid : ¬ (normalizeEntityRow now p).entity_id = "")
    (hdec : jsonDecOk (jsOrEmptyObj p.analysis) = true)
    (hkeys : ((objFields (jsOrEmptyObj p.analysis)).map Prod.fst).Nodup)
    (hdisj : ∀ kv ∈ objFields (jsOrEmptyObj p.analysis),
      kv.1 ∉ restoredFixedKeys) :
    decodeJson (normalizeEntityRow now p).analysis_json =
      some (jsOrEmptyObj p.analysis) ∧
    ∃ o, cacheLookup (rebuildCache (storeAll now ps))
        (normalizeEntityRow now p).entity_id = some o ∧
      getField o "entity_id" =
        some (Json.str (normalizeEntityRow now p).entity_id) ∧
      getField o "entity_type" =
        some (Json.str (normalizeEntityRow now p).entity_type) ∧
      getField o "source_url" =
        some (Json.str (normalizeEntityRow now p).source_url) ∧
      getField o "title" = some (Json.str (normalizeEntityRow now p).title) ∧
      getField o "content_title" =
        some (Json.str (normalizeEntityRow now p).title) ∧
      getField o "text" =
        some (Json.str (normalizeEntityRow now p).extracted_text) ∧
      getField o "risk_level" =
        some (Json.str (normalizeEntityRow now p).risk_level) ∧
      getField o "detected_at" =
        some (Json.str (normalizeEntityRow now p).detected_at) ∧
      (∀ kv ∈ objFields (jsOrEmptyObj p.analysis),
        getField o kv.1 = some kv.2) := by
  have hrt : decodeJson (normalizeEntityRow now p).analysis_json =
      some (jsOrEmptyObj p.analysis) :=
    decodeJson_stringifyJson _ hdec
  refine ⟨hrt, ?_⟩
  have hrowmem : normalizeEntityRow now p ∈ (storeAll now ps).entities := by
    rw [storeAll_entities now ps hnd]
    exact List.mem_map_of_mem _ hmem
  have hlen2 : (storeAll now ps).entities.length ≤ 2000 := by
    rw [storeAll_entities now ps hnd, List.length_map]
    exact hlen
  have hrec := mem_queryEntitiesRecs (storeAll now ps) _ hrowmem hlen2
  rw [hrt] at hrec
  have hndrec : ((queryEntitiesRecs (storeAll now ps)).map
      (fun x => x.1.entity_id)).Nodup := by
    apply queryEntitiesRecs_ids_nodup
    · rw [storeAll_entities now ps hnd]
      exact hnd
    · exact hlen2
  have hlook : cacheLookup (rebuildCache (storeAll now ps))
      (normalizeEntityRow now p).entity_id =
      some (restoredObj (normalizeEntityRow now p) (jsOrEmptyObj p.analysis)) := by
    rw [rebuildCache]
    exact restoreFold_lookup _ []
      (normalizeEntityRow now p, jsOrEmptyObj p.analysis) hrec hndrec hid rfl
  refine ⟨restoredObj (normalizeEntityRow now p) (jsOrEmptyObj p.analysis),
    hlook, ?f1, ?f2, ?f3, ?f4, ?f5, ?f6, ?f7, ?f8, ?fa⟩
  case fa =>
    intro kv hkv
    rw [restoredObj]
    rw [getField_spread_mem _ _ kv.1 kv.2 (by rw [Prod.mk.eta]; exact hkv) hkeys]
  all_goals rw [restoredObj, getField_spread_notmem]
  all_goals first
    | (intro kv hkv he
       exact hdisj kv hkv (by rw [he]; simp [restoredFixedKeys]))
    | (by_cases himg :
        (normalizeEntityRow now p).entity_type.toUpper = "IMAGE" <;>
        simp [himg, getField_cons_eq, getField_cons_ne])

/-- C9: image-capture deduplication per navigation epoch: within one epoch
an image URL observed any number of times is submitted to the analyzer
exactly once (the seen-set suppresses repeats); after a navigation event
the seen-set is cleared and the same URL is submitted once more; and every
submission of a valid URL reaches the analyzer (the request is issued in
every branch of the bridge). -/
theorem c9_image_dedup_per_epoch (url mime nav : String) (st : Nat)
    (s : MonState) (n m : Nat)
    (hst : 200 ≤ st ∧ st < 300)
    (himg : looksLikeImage url mime true = true)
    (hseen : url ∉ s.seen) :
    (monRun s (List.replicate (n + 1)
        (MonEvent.completedRequest url st mime true true))).2 = [url] ∧
    (monRun s (List.replicate (n + 1)
          (MonEvent.completedRequest url st mime true true) ++
        MonEvent.navigated nav ::
          List.replicate (m + 1)
            (MonEvent.completedRequest url st mime true true))).2 =
      [url, url] ∧
    (∀ (primary : FetchOutcome ImageAnalysis) (destroyed : Bool) (now : Nat),
      isValidHttpUrl url = true →
      (postImageUrlToBackend url primary destroyed now).analyzerRequested =
        true) := by
  have hst2 : ¬ (st < 200 ∨ 300 ≤ st) := by omega
  have h1 := monRun_replicate_fresh s url st mime true n hst2 himg hseen
  refine ⟨by rw [h1], ?_, ?_⟩
  · rw [monRun_append, h1]
    have hnav : monStep { seen := url :: s.seen } (MonEvent.navigated nav) =
        ({ seen := [] }, none) := rfl
    have h2 := monRun_replicate_fresh { seen := [] } url st mime true m hst2 himg
      (by simp)
    have h3 : (monRun { seen := url :: s.seen } (MonEvent.navigated nav ::
        List.replicate (m + 1)
          (MonEvent.completedRequest url st mime true true))).2 = [url] := by
      rw [monRun, hnav]
      simp [h2]
    simp [h3]
  · intro primary destroyed now hv
    rw [postImageUrlToBackend.eq_def, if_neg (by simp [hv])]
    cases primary with
    | threw msg => rfl
    | response ok st2 a => cases ok <;> cases destroyed <;> rfl

/-- C10: manual-text analysis is not identity-idempotent: the digest input
of the manual-text entity id determines the submission time (so different
times give different digest inputs), a concrete pair of submissions one
millisecond apart yields two distinct entity ids, and rows with distinct
ids are both retained by the entity upsert — two separate rows, not one
upserted record. -/
theorem c10_manual_text_not_idempotent :
    (∀ (t1 t2 : Nat) (text : String),
      manualTextDigestInput t1 text = manualTextDigestInput t2 text →
      t1 = t2) ∧
    ¬ manualTextEntityId 1000 "abc" = manualTextEntityId 1001 "abc" ∧
    (∀ (t : List EntityRow) (r1 r2 : EntityRow),
      ¬ r1.entity_id = r2.entity_id →
      r1 ∈ insertEntityStmt (insertEntityStmt t r1) r2 ∧
      r2 ∈ insertEntityStmt (insertEntityStmt t r1) r2) :=
  ⟨manualDigestInput_inj, by decide, twoRows⟩

/-! ## Concrete witnesses -/

def c1ca : Capture := ⟨CaptureKind.text, "https://a.com", "T", "x", 1, 1⟩

def c1cb : Capture := ⟨CaptureKind.text, "https://a.com", "T", "y", 2, 2⟩

def c1r1 : EntityRow := ⟨"e1", "TEXT", "u", "t", "x", "LOW", "\x7b\x7d", "ts"⟩

def c1r2 : EntityRow := ⟨"e1", "TEXT", "u2", "t2", "x2", "HIGH", "\x7b\x7d", "ts2"⟩

theorem c1_witness :
    captureEntityId c1ca = captureEntityId c1cb ∧
    (captureEntityId c1ca).length = 16 ∧
    insertEntityStmt (insertEntityStmt [] c1r1) c1r2 =
      insertEntityStmt [] c1r2 :=
  ⟨c1_entity_identity_idempotent.1 c1ca c1cb rfl rfl (fun _ => rfl),
   c1_entity_identity_idempotent.2.1 c1ca,
   c1_entity_identity_idempotent.2.2 [] c1r1 c1r2 rfl⟩

theorem c3_witness :
    (postImageUrlToBackend "https://a.com/x.jpg"
        (FetchOutcome.response true 200
          (primaryImageResponse 100 (1 / 2) "HIGH" none "s"))
        false 7).trustWrite =
      some (imageEntityId "https://a.com/x.jpg",
        (trustUpdate 100 (1 / 2)).1, (trustUpdate 100 (1 / 2)).2) :=
  (c3_trust_from_primary 100 (1 / 2) "HIGH" (1 / 2) [] "s" c3tp
    GeminiOutcome.noApiKey "https://a.com/x.jpg" none 7
    (by decide) (by decide)).2.2

def c4tp : TextPayload := ⟨"T", "https://a.com", "body", 2, 0⟩

def c4a : TextAnalysis := ⟨1 / 2, "LOW", 1 / 2, [], 80, -20, "s"⟩

theorem c4_witness :
    (postTextToBackend (some c4tp) (FetchOutcome.response true 200 c4a)
        GeminiOutcome.fetchThrew false 7).cacheWrite =
      some (textEntityId c4tp.url c4tp.title,
        mergedTextEntity (textEntityId c4tp.url c4tp.title) c4tp c4a none 7) :=
  (c4_enrichment_failure_null c4tp c4a GeminiOutcome.fetchThrew 7
    (by decide) rfl).2.2.2.2.2.2.1

theorem c5_witness :
    postImageUrlToBackend "https://a.com/x.jpg" (FetchOutcome.threw "boom")
        false 7 =
      { noEffects with
          analyzerRequested := true
          auditWrite := some ("ANALYSIS_FAILED", "") } :=
  (c5_image_failure_drop "https://a.com/x.jpg" (by decide)).1 "boom" false 7

def c6p : EntityParams :=
  { entity_id := some "e1", entity_type := some "TEXT",
    analysis := some (Json.obj (JsonObj.cons "ai_generated_probability"
      (Json.num (1 / 2)) JsonObj.nil)) }

theorem c6_witness :
    decodeJson (normalizeEntityRow 7 c6p).analysis_json =
      some (jsOrEmptyObj c6p.analysis) ∧
    ∃ o, cacheLookup (rebuildCache (storeAll 7 [c6p]))
        (normalizeEntityRow 7 c6p).entity_id = some o :=
  have h := c6_cache_rebuild_roundtrip 7 [c6p] c6p (List.mem_singleton.mpr rfl)
    (by simp) (by norm_num) (by decide)
    (by simp [c6p, jsOrEmptyObj, jsonDecOk, objDecOk, decOkQ, fracCount])
    (by simp [c6p, jsOrEmptyObj, objFields, jsonObjToList]) (by decide)
  ⟨h.1, h.2.elim fun o ho => ⟨o, ho.1⟩⟩

def c8a1 : AuditRow := ⟨"ev1", "ENTITY_DETECTED", "e1", "s", "ts", "m"⟩

def c8a2 : AuditRow := ⟨"ev1", "ANALYSIS_FAILED", "e2", "s2", "ts2", "m2"⟩

theorem c8_witness :
    c8a1 ∈ (applyOp 7 { audit_log := [c8a1] }
      (DbOp.insertEntityOp {})).audit_log ∧
    insertAuditStmt [c8a1] c8a2 = [c8a1] :=
  ⟨c8_audit_immutability.1 7 { audit_log := [c8a1] } (DbOp.insertEntityOp {})
      c8a1 (List.mem_singleton.mpr rfl),
   c8_audit_immutability.2 [c8a1] c8a1 c8a2 (List.mem_singleton.mpr rfl) rfl⟩

theorem c9_witness :
    (monRun { seen := [] } (List.replicate 2
        (MonEvent.completedRequest "https://a.com/x.jpg" 200 "image/png"
          true true))).2 = ["https://a.com/x.jpg"] ∧
    (monRun { seen := [] } (List.replicate 2
          (MonEvent.completedRequest "https://a.com/x.jpg" 200 "image/png"
            true true) ++
        MonEvent.navigated "https://b.com" ::
          List.replicate 1
            (MonEvent.completedRequest "https://a.com/x.jpg" 200 "image/png"
              true true))).2 =
      ["https://a.com/x.jpg", "https://a.com/x.jpg"] ∧
    (∀ (primary : FetchOutcome ImageAnalysis) (destroyed : Bool) (now : Nat),
      isValidHttpUrl "https://a.com/x.jpg" = true →
      (postImageUrlToBackend "https://a.com/x.jpg" primary destroyed
          now).analyzerRequested = true) :=
  c9_image_dedup_per_epoch "https://a.com/x.jpg" "image/png" "https://b.com"
    200 { seen := [] } 1 0 (by omega) (by decide) (by simp)

def c10r1 : EntityRow := ⟨"m1", "TEXT", "", "t", "x", "LOW", "\x7b\x7d", "ts"⟩

def c10r2 : EntityRow := ⟨"m2", "TEXT", "", "t", "x", "LOW", "\x7b\x7d", "ts"⟩

theorem c10_witness :
    (manualTextDigestInput 1000 "abc" = manualTextDigestInput 1001 "abc" →
      (1000 : Nat) = 1001) ∧
    (c10r1 ∈ insertEntityStmt (insertEntityStmt [] c10r1) c10r2 ∧
     c10r2 ∈ insertEntityStmt (insertEntityStmt [] c10r1) c10r2) :=
  ⟨c10_manual_text_not_idempotent.1 1000 1001 "abc",
   c10_manual_text_not_idempotent.2.2 [] c10r1 c10r2 (by decide)⟩

end EntityX
